import Mathlib

/-!
# ecore: reflective objects and their association lists

A shallow embedding of `ecore/BasicEObject.cpp` and `ecore/EObjectEList.hpp`.

* Heap objects are addressed by an identity (`ObjId`); a `std::shared_ptr` is a value of
  type `Ptr`, a `std::weak_ptr` is an identity that is looked up in the heap when locked.
* C++ member functions become functions that take the receiver first and return the new
  state together with the calls they issue on other objects (`Event`), in program order.
* `int` is `Int` reduced to 32 bits after every arithmetic operation.
* The inverse update entry points a list calls on its elements are not defined in the
  sources: the calls are recorded, and the container slot they maintain is modelled from the
  spec (`ContainerSlot`, `replayInverse`).
* `BOOST_ASSERT_MSG` and `BOOST_VERIFY_MSG` depend on the build: member functions that use
  them take a flag `checked`.
-/

namespace ecore

/-- Identity (address) of an object on the heap. -/
abbrev ObjId := Nat

/-- Identity of an adapter; `EAdapter*` in the source. -/
abbrev AdapterId := Nat

/-- Reduction of a mathematical integer to the range of a 32-bit two's-complement `int`. -/
def wrapInt (x : Int) : Int :=
  (x + 2147483648) % 4294967296 - 2147483648

/-- Subtraction of two `int` values, as in `EOPPOSITE_FEATURE_BASE - featureID_`. -/
def intSub (a b : Int) : Int :=
  wrapInt (a - b)

/-! ## Metadata registry -/

/-- Modelled from the spec: `EOperation` (EOperation.hpp is not among the sources); an
invokable behaviour with its `OperationIdentifier`. `address` is the identity of the
descriptor object: two `std::shared_ptr`s to descriptors are the same when it is. -/
structure EOperation where
  name : String
  operationID : Int
  address : Nat := 0
  deriving DecidableEq

/-- Modelled from the spec: `EStructuralFeature` / `EReference` (their headers are not among
the sources). `isEReference` says whether the dynamic type is `EReference`; `eOpposite` is
the declared opposite of a reference, represented by what the list reads from it, its
feature id (`FeatureDescriptor.oppositeFeature() -> optional FeatureDescriptor`). `address`
is the identity of the descriptor object: two `std::shared_ptr`s to descriptors are the same
when it is. -/
structure EStructuralFeature where
  name : String
  featureID : Int
  isEReference : Bool
  eOpposite : Option Int
  address : Nat := 0
  deriving DecidableEq

/-- Modelled from the spec: `EClass` (EClass.hpp is not among the sources), the class
descriptor with "all structural features" and "all operations". -/
structure EClass where
  eAllStructuralFeatures : List EStructuralFeature
  eAllOperations : List EOperation
  deriving DecidableEq

/-- Modelled from the spec: `ClassDescriptor.featureById(id) -> optional FeatureDescriptor`;
`none` stands for the null pointer. -/
def EClass.getEStructuralFeature (c : EClass) (featureID : Int) : Option EStructuralFeature :=
  c.eAllStructuralFeatures.find? (fun f => decide (f.featureID = featureID))

/-- Modelled from the spec: `ClassDescriptor.operationById(id)`; `none` stands for the null
pointer. -/
def EClass.getEOperation (c : EClass) (operationID : Int) : Option EOperation :=
  c.eAllOperations.find? (fun o => decide (o.operationID = operationID))

/-! ## Values, notifications and calls -/

/-- A value of the list's element type `T`, a `std::shared_ptr`: null, a pointer to an object
whose dynamic type derives from `BasicEObject`, or a pointer to an object whose dynamic type
does not. Equality is pointer identity. -/
inductive Ptr where
  | null
  | eobject (id : ObjId)
  | foreign (id : Nat)
  deriving DecidableEq

/-- `std::dynamic_pointer_cast<BasicEObject>`: the object when the cast succeeds, `none` (a
null pointer) otherwise. -/
def dynamic_pointer_cast : Ptr → Option ObjId
  | Ptr.eobject id => some id
  | _ => none

/-- `ENotification::EventType`, the kinds the list uses. -/
inductive EventType where
  | ADD
  | REMOVE
  | SET
  deriving DecidableEq

/-- `ENotification` as built by `createNotification`: event type, notifier, the feature the
notifier's class gives for the list's feature id, old value, new value and position. -/
structure ENotification where
  eventType : EventType
  notifier : ObjId
  feature : Option EStructuralFeature
  oldValue : Ptr
  newValue : Ptr
  position : Nat
  deriving DecidableEq

/-- The calls a list operation issues, in program order. `eInverseAdd q owner id` is
`q->eInverseAdd( owner, id )`, `make_ENotification n` is the `std::make_shared<ENotification>`
of `createNotification`, and `notifyChanged a n` is `a->notifyChanged( n )`. -/
inductive Event where
  | eInverseAdd (target : ObjId) (owner : Option ObjId) (featureID : Int)
  | eInverseRemove (target : ObjId) (owner : Option ObjId) (featureID : Int)
  | make_ENotification (n : ENotification)
  | notifyChanged (adapter : AdapterId) (n : Option ENotification)
  deriving DecidableEq

/-- The call is an inverse-add. -/
def Event.isInverseAdd : Event → Bool
  | Event.eInverseAdd _ _ _ => true
  | _ => false

/-- The call is an inverse-remove. -/
def Event.isInverseRemove : Event → Bool
  | Event.eInverseRemove _ _ _ => true
  | _ => false

/-- The call is an inverse update (add or remove). -/
def Event.isInverse (e : Event) : Bool :=
  e.isInverseAdd || e.isInverseRemove

/-- The call constructs a notification or delivers one to an adapter. -/
def Event.isNotification : Event → Bool
  | Event.make_ENotification _ => true
  | Event.notifyChanged _ _ => true
  | _ => false

/-! ## BasicEObject -/

/-- The fields of `BasicEObject`, with the class descriptor `eClass()` returns. The
constructor empties `eContainer_` and `eContainingFeature_` and nothing in the sources
assigns them afterwards. -/
structure BasicEObject where
  eClass : EClass
  eDeliver_ : Bool
  eAdapters_ : List AdapterId
  eContainer_ : Option ObjId
  eContainingFeature_ : Option EStructuralFeature
  deriving DecidableEq

/-- The constructor `BasicEObject::BasicEObject()`. -/
def BasicEObject.construct (c : EClass) : BasicEObject :=
  { eClass := c, eDeliver_ := false, eAdapters_ := [], eContainer_ := none,
    eContainingFeature_ := none }

/-- `BasicEObject::eAdapters`. -/
def BasicEObject.eAdapters (self : BasicEObject) : List AdapterId :=
  self.eAdapters_

/-- `BasicEObject::eDeliver`. -/
def BasicEObject.eDeliver (self : BasicEObject) : Bool :=
  self.eDeliver_

/-- `BasicEObject::eSetDeliver`. -/
def BasicEObject.eSetDeliver (self : BasicEObject) (deliver : Bool) : BasicEObject :=
  { self with eDeliver_ := deliver }

/-- `BasicEObject::eNotify`: one `notifyChanged` per adapter, in the order of the adapter
list; the object itself is returned as it was. -/
def BasicEObject.eNotify (self : BasicEObject) (notification : Option ENotification) :
    BasicEObject × List Event :=
  (self, self.eAdapters_.map (fun eAdapter => Event.notifyChanged eAdapter notification))

/-- `BasicEObject::eNotificationRequired`. -/
def BasicEObject.eNotificationRequired (self : BasicEObject) : Bool :=
  self.eDeliver_ && decide (self.eAdapters_.length > 0)

/-- `BasicEObject::eInverseAdd( int featureID, const boost::any& newValue )`: the body is
empty. -/
def BasicEObject.eInverseAdd (self : BasicEObject) (_featureID : Int)
    (_newValue : Option ObjId) : BasicEObject :=
  self

/-- `BasicEObject::eInverseRemove( int featureID, const boost::any& oldValue )`: the body is
empty. -/
def BasicEObject.eInverseRemove (self : BasicEObject) (_featureID : Int)
    (_oldValue : Option ObjId) : BasicEObject :=
  self

/-- `BasicEObject::setEContainer`: the body is empty. -/
def BasicEObject.setEContainer (self : BasicEObject) (_eContainer : Option ObjId)
    (_eContainingFeature : Option EStructuralFeature) : BasicEObject :=
  self

/-! ## The heap -/

/-- The heap: the state of every live `BasicEObject`; `none` at an identity whose object has
been destroyed (a `std::weak_ptr` to it has expired). -/
abbrev Heap := ObjId → Option BasicEObject

/-- Writes the state of the object at `p`. -/
def heapStore (heap : Heap) (p : ObjId) (o : BasicEObject) : Heap :=
  fun i => if i = p then some o else heap i

/-! ## BasicEList -/

/-- Modelled from the spec: the generic sequence container `BasicEList<T>` (BasicEList.hpp is
not among the sources), an ordered backing sequence. -/
structure BasicEList (T : Type) where
  v_ : List T

/-- Modelled from the spec: `size()` of the generic sequence container. -/
def BasicEList.size {T : Type} (l : BasicEList T) : Nat :=
  l.v_.length

/-- Modelled from the spec: the primitive behind `append`, storing the value at the end of
the backing sequence. The identity test of the container's public `add` runs in front of
this method ("rejected by the backing sequence before inverse bookkeeping runs"), which is
the method the list overrides. -/
def BasicEList.addUnique {T : Type} (l : BasicEList T) (e : T) : BasicEList T :=
  { v_ := l.v_ ++ [e] }

/-- Modelled from the spec: the primitive behind `insert(index, value)`, storing the value
at `index`; an index beyond the size is a failure. -/
def BasicEList.addUniqueAt {T : Type} (l : BasicEList T) (index : Nat) (e : T) :
    Option (BasicEList T) :=
  if index ≤ l.size then some { v_ := l.v_.insertIdx index e } else none

/-- Modelled from the spec: `removeAt(index) -> value` of the generic sequence container;
an index that is not in the sequence is a failure. -/
def BasicEList.remove {T : Type} (l : BasicEList T) (index : Nat) : Option (T × BasicEList T) :=
  match l.v_[index]? with
  | some oldObject => some (oldObject, { v_ := l.v_.eraseIdx index })
  | none => none

/-- Modelled from the spec: `set(index, value) -> oldValue` of the generic sequence
container; an index that is not in the sequence is a failure. -/
def BasicEList.setUnique {T : Type} (l : BasicEList T) (index : Nat) (e : T) :
    Option (T × BasicEList T) :=
  match l.v_[index]? with
  | some oldObject => some (oldObject, { v_ := l.v_.set index e })
  | none => none

/-! ## EObjectEList -/

/-- `EObjectEList<T, containement, inverse, opposite>`: the three template parameters, the
fields `owner_` (a `std::weak_ptr`, kept as the owner's identity), `featureID_` and
`inverseFeatureID_`, over the backing sequence of `BasicEList<T>`. -/
structure EObjectEList extends BasicEList Ptr where
  containement : Bool
  inverse : Bool
  opposite : Bool
  owner_ : ObjId
  featureID_ : Int
  inverseFeatureID_ : Int

/-- The constructor `EObjectEList( owner, featureID )`: `inverseFeatureID_` starts at `-1`
and becomes the feature id of the opposite when the owner's feature is a reference that
declares one. -/
def EObjectEList.construct (containement inverse opposite : Bool) (owner : ObjId)
    (ownerObject : BasicEObject) (featureID : Int) : EObjectEList :=
  let reference := (ownerObject.eClass.getEStructuralFeature featureID).filter
    (fun f => f.isEReference)
  let inverseFeatureID : Int :=
    match reference with
    | some r =>
      match r.eOpposite with
      | some o => o
      | none => -1
    | none => -1
  { v_ := [], containement := containement, inverse := inverse, opposite := opposite,
    owner_ := owner, featureID_ := featureID, inverseFeatureID_ := inverseFeatureID }

/-- The constructor `EObjectEList( owner, featureID, inverseFeatureID )`. -/
def EObjectEList.constructWith (containement inverse opposite : Bool) (owner : ObjId)
    (featureID : Int) (inverseFeatureID : Int) : EObjectEList :=
  { v_ := [], containement := containement, inverse := inverse, opposite := opposite,
    owner_ := owner, featureID_ := featureID, inverseFeatureID_ := inverseFeatureID }

/-- `EObjectEList::isUnique`. -/
def EObjectEList.isUnique (_l : EObjectEList) : Bool :=
  true

/-- `EObjectEList::getOwner`: `owner_.lock()`, null once the owner has been destroyed. -/
def EObjectEList.getOwner (l : EObjectEList) (heap : Heap) : Option ObjId :=
  match heap l.owner_ with
  | some _ => some l.owner_
  | none => none

/-- `EObjectEList::isNotificationRequired`. -/
def EObjectEList.isNotificationRequired (l : EObjectEList) (heap : Heap) : Bool :=
  match heap l.owner_ with
  | some owner => owner.eNotificationRequired
  | none => false

/-- `EObjectEList::createNotification`: the notification (null when the owner has been
destroyed) and the construction it performs. -/
def EObjectEList.createNotification (l : EObjectEList) (heap : Heap) (eventType : EventType)
    (oldValue newValue : Ptr) (position : Nat) : Option ENotification × List Event :=
  match heap l.owner_ with
  | some owner =>
    let n : ENotification :=
      { eventType := eventType, notifier := l.owner_,
        feature := owner.eClass.getEStructuralFeature l.featureID_,
        oldValue := oldValue, newValue := newValue, position := position }
    (some n, [Event.make_ENotification n])
  | none => (none, [])

/-- `EObjectEList::dispatchNotification`. -/
def EObjectEList.dispatchNotification (l : EObjectEList) (heap : Heap)
    (notification : Option ENotification) : Heap × List Event :=
  match heap l.owner_ with
  | some owner =>
    let r := owner.eNotify notification
    (heapStore heap l.owner_ r.1, r.2)
  | none => (heap, [])

section

/- `BasicEObject::EOPPOSITE_FEATURE_BASE` is declared in BasicEObject.hpp, which is not among
the sources: the constant is a parameter of everything that reads it. -/
variable (EOPPOSITE_FEATURE_BASE : Int)

/-- `Opposite<Q, opposite>::inverseAdd`: the primary template (`opposite = false`) calls
`q->eInverseAdd( getOwner(), EOPPOSITE_FEATURE_BASE - featureID_ )`, the specialisation for
`opposite = true` calls `q->eInverseAdd( getOwner(), inverseFeatureID_ )`; both pass
`getOwner()`, whatever it is. The overload that takes the owner and the identifier is
declared in BasicEObject.hpp and defined nowhere in the sources: the call is recorded, and
the heap, which holds what a list reads of an object (whether it is alive, its class, its
delivery flag and its adapters), is handed on as it is. What the spec asks of the receiver,
its container slot, is `ContainerSlot.eInverseAdd`. -/
def EObjectEList.Opposite.inverseAdd (l : EObjectEList) (heap : Heap) (q : ObjId) :
    Heap × List Event :=
  match l.opposite with
  | false =>
    (heap,
      [Event.eInverseAdd q (l.getOwner heap) (intSub EOPPOSITE_FEATURE_BASE l.featureID_)])
  | true =>
    (heap, [Event.eInverseAdd q (l.getOwner heap) l.inverseFeatureID_])

/-- `Opposite<Q, opposite>::inverseRemove`, as `inverseAdd` with `eInverseRemove`. -/
def EObjectEList.Opposite.inverseRemove (l : EObjectEList) (heap : Heap) (q : ObjId) :
    Heap × List Event :=
  match l.opposite with
  | false =>
    (heap,
      [Event.eInverseRemove q (l.getOwner heap) (intSub EOPPOSITE_FEATURE_BASE l.featureID_)])
  | true =>
    (heap, [Event.eInverseRemove q (l.getOwner heap) l.inverseFeatureID_])

/-- `Inverse<Q, inverse, opposite>::inverseAdd`: empty in the primary template
(`inverse = false`), forwarded to `Opposite` in the specialisation for `inverse = true`. -/
def EObjectEList.Inverse.inverseAdd (l : EObjectEList) (heap : Heap) (q : ObjId) :
    Heap × List Event :=
  match l.inverse with
  | false => (heap, [])
  | true => EObjectEList.Opposite.inverseAdd EOPPOSITE_FEATURE_BASE l heap q

/-- `Inverse<Q, inverse, opposite>::inverseRemove`. -/
def EObjectEList.Inverse.inverseRemove (l : EObjectEList) (heap : Heap) (q : ObjId) :
    Heap × List Event :=
  match l.inverse with
  | false => (heap, [])
  | true => EObjectEList.Opposite.inverseRemove EOPPOSITE_FEATURE_BASE l heap q

/-- What a list operation leaves behind: the value it returns, the list, the heap, and the
calls it issued on other objects, in program order. -/
structure Step (α : Type) where
  value : α
  list : EObjectEList
  heap : Heap
  calls : List Event

/-- `EObjectEList::addUnique( e )`. -/
def EObjectEList.addUnique (l : EObjectEList) (heap : Heap) (e : Ptr) : Step Unit :=
  match dynamic_pointer_cast e with
  | some object =>
    let index := l.size
    let l1 : EObjectEList := { l with toBasicEList := l.toBasicEList.addUnique e }
    let inv := EObjectEList.Inverse.inverseAdd EOPPOSITE_FEATURE_BASE l1 heap object
    if l1.isNotificationRequired inv.1 then
      let n := l1.createNotification inv.1 EventType.ADD Ptr.null e index
      let d := l1.dispatchNotification inv.1 n.1
      { value := (), list := l1, heap := d.1, calls := inv.2 ++ n.2 ++ d.2 }
    else
      { value := (), list := l1, heap := inv.1, calls := inv.2 }
  | none => { value := (), list := l, heap := heap, calls := [] }

/-- `EObjectEList::addUnique( index, e )`. -/
def EObjectEList.addUniqueAt (l : EObjectEList) (heap : Heap) (index : Nat) (e : Ptr) :
    Option (Step Unit) :=
  match dynamic_pointer_cast e with
  | some object =>
    match l.toBasicEList.addUniqueAt index e with
    | some b =>
      let l1 : EObjectEList := { l with toBasicEList := b }
      let inv := EObjectEList.Inverse.inverseAdd EOPPOSITE_FEATURE_BASE l1 heap object
      if l1.isNotificationRequired inv.1 then
        let n := l1.createNotification inv.1 EventType.ADD Ptr.null e index
        let d := l1.dispatchNotification inv.1 n.1
        some { value := (), list := l1, heap := d.1, calls := inv.2 ++ n.2 ++ d.2 }
      else
        some { value := (), list := l1, heap := inv.1, calls := inv.2 }
    | none => none
  | none => some { value := (), list := l, heap := heap, calls := [] }

/-- `EObjectEList::remove( index )`. -/
def EObjectEList.remove (l : EObjectEList) (heap : Heap) (index : Nat) : Option (Step Ptr) :=
  match l.toBasicEList.remove index with
  | some (oldObject, b) =>
    let l1 : EObjectEList := { l with toBasicEList := b }
    let inv : Heap × List Event :=
      match dynamic_pointer_cast oldObject with
      | some oldBasicObject =>
        EObjectEList.Inverse.inverseRemove EOPPOSITE_FEATURE_BASE l1 heap oldBasicObject
      | none => (heap, [])
    if l1.isNotificationRequired inv.1 then
      let n := l1.createNotification inv.1 EventType.REMOVE oldObject Ptr.null index
      let d := l1.dispatchNotification inv.1 n.1
      some { value := oldObject, list := l1, heap := d.1, calls := inv.2 ++ n.2 ++ d.2 }
    else
      some { value := oldObject, list := l1, heap := inv.1, calls := inv.2 }
  | none => none

/-- `EObjectEList::setUnique( index, newObject )`. -/
def EObjectEList.setUnique (l : EObjectEList) (heap : Heap) (index : Nat) (newObject : Ptr) :
    Option (Step Ptr) :=
  match l.toBasicEList.setUnique index newObject with
  | some (oldObject, b) =>
    let l1 : EObjectEList := { l with toBasicEList := b }
    let inv : Heap × List Event :=
      if newObject ≠ oldObject then
        let rem : Heap × List Event :=
          match dynamic_pointer_cast oldObject with
          | some oldBasicObject =>
            EObjectEList.Inverse.inverseRemove EOPPOSITE_FEATURE_BASE l1 heap oldBasicObject
          | none => (heap, [])
        let add : Heap × List Event :=
          match dynamic_pointer_cast newObject with
          | some newBasicObject =>
            EObjectEList.Inverse.inverseAdd EOPPOSITE_FEATURE_BASE l1 rem.1 newBasicObject
          | none => (rem.1, [])
        (add.1, rem.2 ++ add.2)
      else (heap, [])
    if l1.isNotificationRequired inv.1 then
      let n := l1.createNotification inv.1 EventType.SET oldObject newObject index
      let d := l1.dispatchNotification inv.1 n.1
      some { value := oldObject, list := l1, heap := d.1, calls := inv.2 ++ n.2 ++ d.2 }
    else
      some { value := oldObject, list := l1, heap := inv.1, calls := inv.2 }
  | none => none

/-- One mutating call on a list. -/
inductive Call where
  | addUnique (e : Ptr)
  | addUniqueAt (index : Nat) (e : Ptr)
  | remove (index : Nat)
  | setUnique (index : Nat) (newObject : Ptr)
  deriving DecidableEq

/-- Performs one mutating call, forgetting the value it returns. -/
def EObjectEList.perform (l : EObjectEList) (heap : Heap) : Call → Option (Step Unit)
  | Call.addUnique e => some (EObjectEList.addUnique EOPPOSITE_FEATURE_BASE l heap e)
  | Call.addUniqueAt index e => EObjectEList.addUniqueAt EOPPOSITE_FEATURE_BASE l heap index e
  | Call.remove index =>
    (EObjectEList.remove EOPPOSITE_FEATURE_BASE l heap index).map
      (fun s => { value := (), list := s.list, heap := s.heap, calls := s.calls })
  | Call.setUnique index newObject =>
    (EObjectEList.setUnique EOPPOSITE_FEATURE_BASE l heap index newObject).map
      (fun s => { value := (), list := s.list, heap := s.heap, calls := s.calls })

/-- Performs a sequence of mutating calls one after the other, collecting the calls they
issue; fails as soon as one of them does. -/
def EObjectEList.performAll (l : EObjectEList) (heap : Heap) : List Call → Option (Step Unit)
  | [] => some { value := (), list := l, heap := heap, calls := [] }
  | c :: cs =>
    match EObjectEList.perform EOPPOSITE_FEATURE_BASE l heap c with
    | some s =>
      match EObjectEList.performAll s.list s.heap cs with
      | some s2 => some { value := (), list := s2.list, heap := s2.heap, calls := s.calls ++ s2.calls }
      | none => none
    | none => none

end

/-! ## Reflective access -/

/-- A `boost::any`: empty, or holding a pointer or an `int`. -/
inductive Any where
  | empty
  | ptr (p : Ptr)
  | int (i : Int)
  deriving DecidableEq

/-- How a call ends when it does not return: a failed `BOOST_ASSERT_MSG` or
`BOOST_VERIFY_MSG`, which aborts the process with its message (only in a build that checks
assertions), or a thrown string, which reaches the caller. -/
inductive Failure where
  | assertion (message : String)
  | thrown (message : String)
  deriving DecidableEq

/-- What a member function of `BasicEObject` leaves behind: the state of the receiver when
the call ended, and the value it returns or the failure that ends it. -/
structure Outcome (α : Type) where
  object : BasicEObject
  result : Except Failure α

/-- `BasicEObject::eDerivedStructuralFeatureID`. `checked` says whether the build checks
assertions: `BOOST_VERIFY_MSG` then aborts when the pointer is not among all structural
features of the class (`contains` compares pointers); with `NDEBUG` the test is evaluated
and its answer dropped. Either way the result is the feature's own id. -/
def BasicEObject.eDerivedStructuralFeatureID (self : BasicEObject) (checked : Bool)
    (eStructuralFeature : EStructuralFeature) : Except Failure Int :=
  if checked &&
      !self.eClass.eAllStructuralFeatures.any
        (fun g => decide (g.address = eStructuralFeature.address)) then
    Except.error (Failure.assertion
      ("The feature '" ++ eStructuralFeature.name ++ "' is not a valid feature"))
  else
    Except.ok eStructuralFeature.featureID

/-- `BasicEObject::eDerivedOperationID`, as `eDerivedStructuralFeatureID`. -/
def BasicEObject.eDerivedOperationID (self : BasicEObject) (checked : Bool)
    (eOperation : EOperation) : Except Failure Int :=
  if checked &&
      !self.eClass.eAllOperations.any (fun g => decide (g.address = eOperation.address)) then
    Except.error (Failure.assertion
      ("The operation '" ++ eOperation.name ++ "' is not a valid operation"))
  else
    Except.ok eOperation.operationID

/-- `BasicEObject::eGet( int featureID, bool resolve, bool coreType )`: `BOOST_ASSERT_MSG`
aborts on an id without a feature when the build checks assertions and is nothing with
`NDEBUG`; the call then returns `boost::any()`. -/
def BasicEObject.eGetID (self : BasicEObject) (checked : Bool) (featureID : Int)
    (_resolve _coreType : Bool) : Outcome Any :=
  if checked && (self.eClass.getEStructuralFeature featureID).isNone then
    { object := self,
      result := Except.error (Failure.assertion ("Invalid featureID:  " ++ toString featureID)) }
  else
    { object := self, result := Except.ok Any.empty }

/-- `BasicEObject::eGet( eFeature, bool resolve, bool coreType )`. -/
def BasicEObject.eGetFeature (self : BasicEObject) (checked : Bool)
    (eFeature : EStructuralFeature) (resolve coreType : Bool) : Outcome Any :=
  match self.eDerivedStructuralFeatureID checked eFeature with
  | Except.ok featureID =>
    if featureID ≥ 0 then self.eGetID checked featureID resolve coreType
    else
      { object := self,
        result := Except.error (Failure.thrown
          ("The feature '" ++ eFeature.name ++ "' is not a valid feature")) }
  | Except.error f => { object := self, result := Except.error f }

/-- `BasicEObject::eGet( feature, bool resolve )`: the body is `return eGet( feature, true )`,
a call with two arguments, which is this overload again. `fuel` bounds the depth of the
calls; `none` means the call has not returned within it. -/
def BasicEObject.eGetFeatureResolve (fuel : Nat) (self : BasicEObject)
    (feature : EStructuralFeature) (_resolve : Bool) : Option (Outcome Any) :=
  match fuel with
  | 0 => none
  | fuel + 1 => BasicEObject.eGetFeatureResolve fuel self feature true

/-- `BasicEObject::eGet( feature )`: `return eGet( feature, true )`. -/
def BasicEObject.eGetFeatureOnly (fuel : Nat) (self : BasicEObject)
    (feature : EStructuralFeature) : Option (Outcome Any) :=
  match fuel with
  | 0 => none
  | fuel + 1 => BasicEObject.eGetFeatureResolve fuel self feature true

/-- `BasicEObject::eIsSet( int featureID )`. -/
def BasicEObject.eIsSetID (self : BasicEObject) (checked : Bool) (featureID : Int) :
    Outcome Bool :=
  if checked && (self.eClass.getEStructuralFeature featureID).isNone then
    { object := self,
      result := Except.error (Failure.assertion ("Invalid featureID:  " ++ toString featureID)) }
  else
    { object := self, result := Except.ok false }

/-- `BasicEObject::eIsSet( eFeature )`. -/
def BasicEObject.eIsSetFeature (self : BasicEObject) (checked : Bool)
    (eFeature : EStructuralFeature) : Outcome Bool :=
  match self.eDerivedStructuralFeatureID checked eFeature with
  | Except.ok featureID =>
    if featureID ≥ 0 then self.eIsSetID checked featureID
    else
      { object := self,
        result := Except.error (Failure.thrown
          ("The feature '" ++ eFeature.name ++ "' is not a valid feature")) }
  | Except.error f => { object := self, result := Except.error f }

/-- `BasicEObject::eSet( int featureID, newValue )`. -/
def BasicEObject.eSetID (self : BasicEObject) (checked : Bool) (featureID : Int)
    (_newValue : Any) : Outcome Unit :=
  if checked && (self.eClass.getEStructuralFeature featureID).isNone then
    { object := self,
      result := Except.error (Failure.assertion ("Invalid featureID:  " ++ toString featureID)) }
  else
    { object := self, result := Except.ok () }

/-- `BasicEObject::eSet( eFeature, newValue )`: the call by id is a statement of its own,
not a `return`; the `throw` follows it on every path. -/
def BasicEObject.eSetFeature (self : BasicEObject) (checked : Bool)
    (eFeature : EStructuralFeature) (newValue : Any) : Outcome Unit :=
  match self.eDerivedStructuralFeatureID checked eFeature with
  | Except.ok featureID =>
    let r : Outcome Unit :=
      if featureID ≥ 0 then self.eSetID checked featureID newValue
      else { object := self, result := Except.ok () }
    match r.result with
    | Except.ok _ =>
      { object := r.object,
        result := Except.error (Failure.thrown
          ("The feature '" ++ eFeature.name ++ "' is not a valid feature")) }
    | Except.error f => { object := r.object, result := Except.error f }
  | Except.error f => { object := self, result := Except.error f }

/-- `BasicEObject::eUnset( int featureID )`. -/
def BasicEObject.eUnsetID (self : BasicEObject) (checked : Bool) (featureID : Int) :
    Outcome Unit :=
  if checked && (self.eClass.getEStructuralFeature featureID).isNone then
    { object := self,
      result := Except.error (Failure.assertion ("Invalid featureID:  " ++ toString featureID)) }
  else
    { object := self, result := Except.ok () }

/-- `BasicEObject::eUnset( eFeature )`: as `eSet( eFeature, newValue )`, the `throw` follows
the call by id on every path. -/
def BasicEObject.eUnsetFeature (self : BasicEObject) (checked : Bool)
    (eFeature : EStructuralFeature) : Outcome Unit :=
  match self.eDerivedStructuralFeatureID checked eFeature with
  | Except.ok featureID =>
    let r : Outcome Unit :=
      if featureID ≥ 0 then self.eUnsetID checked featureID
      else { object := self, result := Except.ok () }
    match r.result with
    | Except.ok _ =>
      { object := r.object,
        result := Except.error (Failure.thrown
          ("The feature '" ++ eFeature.name ++ "' is not a valid feature")) }
    | Except.error f => { object := r.object, result := Except.error f }
  | Except.error f => { object := self, result := Except.error f }

/-- `BasicEObject::eInvoke( int operationID, arguments )`. -/
def BasicEObject.eInvokeID (self : BasicEObject) (checked : Bool) (operationID : Int)
    (_arguments : List Any) : Outcome Any :=
  if checked && (self.eClass.getEOperation operationID).isNone then
    { object := self,
      result := Except.error
        (Failure.assertion ("Invalid operationID:  " ++ toString operationID)) }
  else
    { object := self, result := Except.ok Any.empty }

/-- `BasicEObject::eInvoke( eOperation, arguments )`. -/
def BasicEObject.eInvokeOperation (self : BasicEObject) (checked : Bool)
    (eOperation : EOperation) (arguments : List Any) : Outcome Any :=
  match self.eDerivedOperationID checked eOperation with
  | Except.ok operationID =>
    if operationID ≥ 0 then self.eInvokeID checked operationID arguments
    else
      { object := self,
        result := Except.error (Failure.thrown
          ("The operation '" ++ eOperation.name ++ "' is not a valid operation")) }
  | Except.error f => { object := self, result := Except.error f }

/-! ## Public insertion -/

/-- Modelled from the spec: `add(value)` of the generic sequence container
(`BasicEList<T>::add`, BasicEList.hpp is not among the sources), the public insertion in
front of `addUnique`: a value already present by identity is rejected "before inverse
bookkeeping runs" when the list is unique (`isUnique`); the answer says whether the value
went on to `addUnique`. -/
def EObjectEList.add (EOPPOSITE_FEATURE_BASE : Int) (l : EObjectEList) (heap : Heap)
    (e : Ptr) : Step Bool :=
  if l.isUnique && l.v_.contains e then
    { value := false, list := l, heap := heap, calls := [] }
  else
    let s := EObjectEList.addUnique EOPPOSITE_FEATURE_BASE l heap e
    { value := true, list := s.list, heap := s.heap, calls := s.calls }

/-- Modelled from the spec: `add(index, value)` of the generic sequence container, the
public insertion in front of `addUnique( index, e )`, with the same test. -/
def EObjectEList.addAt (EOPPOSITE_FEATURE_BASE : Int) (l : EObjectEList) (heap : Heap)
    (index : Nat) (e : Ptr) : Option (Step Bool) :=
  if l.isUnique && l.v_.contains e then
    some { value := false, list := l, heap := heap, calls := [] }
  else
    (EObjectEList.addUniqueAt EOPPOSITE_FEATURE_BASE l heap index e).map
      (fun s => { value := true, list := s.list, heap := s.heap, calls := s.calls })

/-! ## The container slot -/

/-- Modelled from the spec: the fields `container` and `containingFeatureId` of a Reflective
Object, the private slot that the inverse update entry points maintain. The entry points
the list calls, `eInverseAdd( owner, featureID )` and `eInverseRemove( owner, featureID )`,
are declared in BasicEObject.hpp and defined nowhere in the sources, which define only
overloads taking `( int, const boost::any& )`. The data model asks that `container` is set
exactly when `containingFeatureId` is. -/
structure ContainerSlot where
  container : Option ObjId
  containingFeatureId : Option Int
  deriving DecidableEq

/-- Modelled from the spec: "created detached (no container)". -/
def ContainerSlot.detached : ContainerSlot :=
  { container := none, containingFeatureId := none }

/-- Modelled from the spec: the inverse update entry point `eInverseAdd` on the receiver's
slot. "If `featureId` is synthetic (`≤ BASE`), the receiver must update only its private
container/containing-feature slot (set on Add, clear on Remove)", with the real feature id
recovered "by inverting the formula"; for a real identifier the receiver updates the named
feature and the slot stays as it is. -/
def ContainerSlot.eInverseAdd (EOPPOSITE_FEATURE_BASE : Int) (slot : ContainerSlot)
    (otherEnd : Option ObjId) (featureID : Int) : ContainerSlot :=
  if featureID ≤ EOPPOSITE_FEATURE_BASE then
    { container := otherEnd,
      containingFeatureId := otherEnd.map (fun _ => intSub EOPPOSITE_FEATURE_BASE featureID) }
  else slot

/-- Modelled from the spec: the inverse update entry point `eInverseRemove` on the receiver's
slot: cleared for a synthetic identifier, untouched for a real one. -/
def ContainerSlot.eInverseRemove (EOPPOSITE_FEATURE_BASE : Int) (slot : ContainerSlot)
    (_otherEnd : Option ObjId) (featureID : Int) : ContainerSlot :=
  if featureID ≤ EOPPOSITE_FEATURE_BASE then ContainerSlot.detached else slot

/-- The class `Folder` of the spec's scenario: one containment feature `children` with
feature id 0 and no opposite. -/
def folderClass : EClass :=
  { eAllStructuralFeatures :=
      [{ name := "children", featureID := 0, isEReference := true, eOpposite := none }],
    eAllOperations := [] }

/-- A heap with a folder at 0 and two nodes at 1 and 2, all freshly constructed. -/
def folderHeap : Heap :=
  fun i => if i < 3 then some (BasicEObject.construct folderClass) else none

/-- The list `folder.children`: containment, inverse, no opposite, owned by object 0. -/
def folderChildren : EObjectEList :=
  EObjectEList.construct true true false 0 (BasicEObject.construct folderClass) 0

/-- The calls of the statement
`if (isNotificationRequired()) dispatchNotification( createNotification( ... ) )`
that closes every mutating method of the list, run in the given heap. -/
def EObjectEList.notifyCalls (l : EObjectEList) (heap : Heap) (eventType : EventType)
    (oldValue newValue : Ptr) (position : Nat) : List Event :=
  if l.isNotificationRequired heap then
    (l.createNotification heap eventType oldValue newValue position).2 ++
      (l.dispatchNotification heap
        (l.createNotification heap eventType oldValue newValue position).1).2
  else []

/-- A heap in which the folder at 0 has been destroyed; the nodes at 1 and 2 live on. -/
def orphanHeap : Heap :=
  fun i => if 0 < i ∧ i < 3 then some (BasicEObject.construct folderClass) else none

/-- A heap in which the folder at 0 delivers notifications to the adapters 10 and 11. -/
def observedHeap : Heap :=
  fun i =>
    if i = 0 then
      some { BasicEObject.construct folderClass with eDeliver_ := true, eAdapters_ := [10, 11] }
    else if i < 3 then some (BasicEObject.construct folderClass)
    else none

/-- The feature `children` of `folderClass`. -/
def childrenFeature : EStructuralFeature :=
  { name := "children", featureID := 0, isEReference := true, eOpposite := none }

/-- A feature that `folderClass` does not have. -/
def strangerFeature : EStructuralFeature :=
  { name := "parent", featureID := 4, isEReference := true, eOpposite := some 0, address := 3 }

/-- An operation that `folderClass` does not have. -/
def strangerOperation : EOperation :=
  { name := "open", operationID := 2, address := 1 }

/-- The attribute `name` of the class `Parent`. -/
def parentName : EStructuralFeature :=
  { name := "name", featureID := 0, isEReference := false, eOpposite := none, address := 1 }

/-- The reference `children` of the class `Parent`; its declared opposite has feature id 3. -/
def parentChildren : EStructuralFeature :=
  { name := "children", featureID := 1, isEReference := true, eOpposite := some 3,
    address := 2 }

/-- The operation `adopt` of the class `Parent`. -/
def adoptOperation : EOperation :=
  { name := "adopt", operationID := 0 }

/-- The class `Parent`: an attribute `name`, a reference `children` and an operation
`adopt`. -/
def parentClass : EClass :=
  { eAllStructuralFeatures := [parentName, parentChildren],
    eAllOperations := [adoptOperation] }

/-! ## Basic facts -/

theorem intSub_of_in_range (a b : Int) (hlo : -2147483648 ≤ a - b)
    (hhi : a - b < 2147483648) : intSub a b = a - b := by
  unfold intSub wrapInt
  omega

theorem heapStore_self (heap : Heap) (p : ObjId) (o : BasicEObject) (h : heap p = some o) :
    heapStore heap p o = heap := by
  funext i
  unfold heapStore
  split
  · next hi => rw [hi, h]
  · rfl

theorem Inverse_inverseAdd_eq (B : Int) (l : EObjectEList) (heap : Heap) (q : ObjId) :
    EObjectEList.Inverse.inverseAdd B l heap q =
      (heap, if l.inverse then
          [Event.eInverseAdd q (l.getOwner heap)
            (if l.opposite then l.inverseFeatureID_ else intSub B l.featureID_)]
        else []) := by
  unfold EObjectEList.Inverse.inverseAdd EObjectEList.Opposite.inverseAdd
  cases l.inverse <;> cases l.opposite <;> simp

theorem Inverse_inverseRemove_eq (B : Int) (l : EObjectEList) (heap : Heap) (q : ObjId) :
    EObjectEList.Inverse.inverseRemove B l heap q =
      (heap, if l.inverse then
          [Event.eInverseRemove q (l.getOwner heap)
            (if l.opposite then l.inverseFeatureID_ else intSub B l.featureID_)]
        else []) := by
  unfold EObjectEList.Inverse.inverseRemove EObjectEList.Opposite.inverseRemove
  cases l.inverse <;> cases l.opposite <;> simp

theorem dispatchNotification_fst (l : EObjectEList) (heap : Heap)
    (n : Option ENotification) : (l.dispatchNotification heap n).1 = heap := by
  unfold EObjectEList.dispatchNotification
  split
  · next o h => exact heapStore_self heap l.owner_ o h
  · rfl

theorem addUnique_heap (B : Int) (l : EObjectEList) (heap : Heap) (e : Ptr) :
    (EObjectEList.addUnique B l heap e).heap = heap := by
  unfold EObjectEList.addUnique
  split
  · simp only [Inverse_inverseAdd_eq]
    split <;> simp [dispatchNotification_fst]
  · rfl

theorem addUniqueAt_heap (B : Int) (l : EObjectEList) (heap : Heap) (index : Nat) (e : Ptr)
    (s : Step Unit) (h : EObjectEList.addUniqueAt B l heap index e = some s) :
    s.heap = heap := by
  unfold EObjectEList.addUniqueAt at h
  split at h
  · split at h
    · simp only [Inverse_inverseAdd_eq] at h
      split at h <;> simp at h <;> subst h <;> simp [dispatchNotification_fst]
    · simp at h
  · simp at h
    subst h
    rfl

theorem remove_heap (B : Int) (l : EObjectEList) (heap : Heap) (index : Nat)
    (s : Step Ptr) (h : EObjectEList.remove B l heap index = some s) :
    s.heap = heap := by
  unfold EObjectEList.remove at h
  split at h
  · next oldObject b _ =>
    cases hc : dynamic_pointer_cast oldObject <;>
      simp only [hc, Inverse_inverseRemove_eq] at h <;>
      split at h <;> simp at h <;> subst h <;> simp [dispatchNotification_fst]
  · simp at h

theorem setUnique_heap (B : Int) (l : EObjectEList) (heap : Heap) (index : Nat)
    (newObject : Ptr) (s : Step Ptr)
    (h : EObjectEList.setUnique B l heap index newObject = some s) :
    s.heap = heap := by
  unfold EObjectEList.setUnique at h
  split at h
  · next oldObject b _ =>
    cases ho : dynamic_pointer_cast oldObject <;>
      cases hn : dynamic_pointer_cast newObject <;>
      by_cases hd : newObject = oldObject <;>
      simp only [ho, hn, hd, Inverse_inverseRemove_eq, Inverse_inverseAdd_eq, ne_eq,
        not_true_eq_false, not_false_eq_true, if_true, if_false] at h <;>
      split at h <;> simp at h <;> subst h <;> simp [dispatchNotification_fst]
  · simp at h

theorem perform_heap (B : Int) (l : EObjectEList) (heap : Heap) (c : Call) (s : Step Unit)
    (h : EObjectEList.perform B l heap c = some s) : s.heap = heap := by
  cases c with
  | addUnique e =>
    simp only [EObjectEList.perform, Option.some.injEq] at h
    subst h
    exact addUnique_heap B l heap e
  | addUniqueAt index e => exact addUniqueAt_heap B l heap index e s h
  | remove index =>
    cases hr : EObjectEList.remove B l heap index with
    | none => simp [EObjectEList.perform, hr] at h
    | some r =>
      simp only [EObjectEList.perform, hr, Option.map_some', Option.some.injEq] at h
      subst h
      exact remove_heap B l heap index r hr
  | setUnique index newObject =>
    cases hr : EObjectEList.setUnique B l heap index newObject with
    | none => simp [EObjectEList.perform, hr] at h
    | some r =>
      simp only [EObjectEList.perform, hr, Option.map_some', Option.some.injEq] at h
      subst h
      exact setUnique_heap B l heap index newObject r hr

theorem performAll_heap (B : Int) (cs : List Call) :
    ∀ (l : EObjectEList) (heap : Heap) (s : Step Unit),
      EObjectEList.performAll B l heap cs = some s → s.heap = heap := by
  induction cs with
  | nil =>
    intro l heap s h
    simp only [EObjectEList.performAll, Option.some.injEq] at h
    subst h
    rfl
  | cons c cs ih =>
    intro l heap s h
    simp only [EObjectEList.performAll] at h
    split at h
    · next s1 h1 =>
      split at h
      · next s2 h2 =>
        simp only [Option.some.injEq] at h
        subst h
        have := ih s1.list s1.heap s2 h2
        rw [this]
        exact perform_heap B l heap c s1 h1
      · simp at h
    · simp at h

theorem isNotificationRequired_with (l : EObjectEList) (b : BasicEList Ptr) (heap : Heap) :
    EObjectEList.isNotificationRequired { l with toBasicEList := b } heap =
      l.isNotificationRequired heap :=
  rfl

theorem getOwner_with (l : EObjectEList) (b : BasicEList Ptr) (heap : Heap) :
    EObjectEList.getOwner { l with toBasicEList := b } heap = l.getOwner heap :=
  rfl

theorem createNotification_with (l : EObjectEList) (b : BasicEList Ptr) (heap : Heap)
    (k : EventType) (o n : Ptr) (i : Nat) :
    EObjectEList.createNotification { l with toBasicEList := b } heap k o n i =
      l.createNotification heap k o n i :=
  rfl

theorem dispatchNotification_with (l : EObjectEList) (b : BasicEList Ptr) (heap : Heap)
    (n : Option ENotification) :
    EObjectEList.dispatchNotification { l with toBasicEList := b } heap n =
      l.dispatchNotification heap n :=
  rfl

theorem isNotificationRequired_of_owner (l : EObjectEList) (heap : Heap) (o : BasicEObject)
    (ho : heap l.owner_ = some o) :
    l.isNotificationRequired heap = o.eNotificationRequired := by
  unfold EObjectEList.isNotificationRequired
  rw [ho]

theorem isNotificationRequired_of_expired (l : EObjectEList) (heap : Heap)
    (ho : heap l.owner_ = none) : l.isNotificationRequired heap = false := by
  unfold EObjectEList.isNotificationRequired
  rw [ho]

theorem createNotification_of_owner (l : EObjectEList) (heap : Heap) (o : BasicEObject)
    (ho : heap l.owner_ = some o) (k : EventType) (old new : Ptr) (i : Nat) :
    l.createNotification heap k old new i =
      (some { eventType := k, notifier := l.owner_,
              feature := o.eClass.getEStructuralFeature l.featureID_,
              oldValue := old, newValue := new, position := i },
        [Event.make_ENotification
          { eventType := k, notifier := l.owner_,
            feature := o.eClass.getEStructuralFeature l.featureID_,
            oldValue := old, newValue := new, position := i }]) := by
  unfold EObjectEList.createNotification
  rw [ho]

theorem dispatchNotification_of_owner (l : EObjectEList) (heap : Heap) (o : BasicEObject)
    (ho : heap l.owner_ = some o) (n : Option ENotification) :
    (l.dispatchNotification heap n).2 =
      o.eAdapters_.map (fun a => Event.notifyChanged a n) := by
  unfold EObjectEList.dispatchNotification
  rw [ho]
  rfl

theorem filter_isInverse_createNotification (l : EObjectEList) (heap : Heap) (k : EventType)
    (old new : Ptr) (i : Nat) :
    (l.createNotification heap k old new i).2.filter Event.isInverse = [] := by
  unfold EObjectEList.createNotification
  split <;> simp [Event.isInverse, Event.isInverseAdd, Event.isInverseRemove]

theorem filter_isInverse_dispatchNotification (l : EObjectEList) (heap : Heap)
    (n : Option ENotification) :
    (l.dispatchNotification heap n).2.filter Event.isInverse = [] := by
  unfold EObjectEList.dispatchNotification
  split <;>
    simp [BasicEObject.eNotify, List.filter_eq_nil_iff, Event.isInverse, Event.isInverseAdd,
      Event.isInverseRemove]

theorem filter_isNotification_inverseAdd (B : Int) (l : EObjectEList) (heap : Heap)
    (q : ObjId) :
    (EObjectEList.Inverse.inverseAdd B l heap q).2.filter Event.isNotification = [] := by
  rw [Inverse_inverseAdd_eq]
  cases l.inverse <;> simp [Event.isNotification]

theorem filter_isNotification_inverseRemove (B : Int) (l : EObjectEList) (heap : Heap)
    (q : ObjId) :
    (EObjectEList.Inverse.inverseRemove B l heap q).2.filter Event.isNotification = [] := by
  rw [Inverse_inverseRemove_eq]
  cases l.inverse <;> simp [Event.isNotification]

theorem notifyCalls_of_required (l : EObjectEList) (heap : Heap) (o : BasicEObject)
    (ho : heap l.owner_ = some o) (hr : o.eNotificationRequired = true) (k : EventType)
    (old new : Ptr) (i : Nat) :
    l.notifyCalls heap k old new i =
      Event.make_ENotification
          { eventType := k, notifier := l.owner_,
            feature := o.eClass.getEStructuralFeature l.featureID_,
            oldValue := old, newValue := new, position := i } ::
        o.eAdapters_.map (fun a => Event.notifyChanged a
          (some { eventType := k, notifier := l.owner_,
                  feature := o.eClass.getEStructuralFeature l.featureID_,
                  oldValue := old, newValue := new, position := i })) := by
  unfold EObjectEList.notifyCalls
  rw [isNotificationRequired_of_owner l heap o ho, hr, createNotification_of_owner l heap o ho,
    dispatchNotification_of_owner l heap o ho]
  rfl

theorem notifyCalls_of_not_required (l : EObjectEList) (heap : Heap)
    (h : l.isNotificationRequired heap = false) (k : EventType) (old new : Ptr) (i : Nat) :
    l.notifyCalls heap k old new i = [] := by
  unfold EObjectEList.notifyCalls
  rw [h]
  rfl

theorem filter_isInverse_notifyCalls (l : EObjectEList) (heap : Heap) (k : EventType)
    (old new : Ptr) (i : Nat) :
    (l.notifyCalls heap k old new i).filter Event.isInverse = [] := by
  unfold EObjectEList.notifyCalls
  split
  · simp only [List.filter_append, filter_isInverse_createNotification,
      filter_isInverse_dispatchNotification, List.append_nil]
  · rfl

theorem addUnique_eq (B : Int) (l : EObjectEList) (heap : Heap) (x : ObjId) :
    EObjectEList.addUnique B l heap (Ptr.eobject x) =
      { value := (), list := { l with v_ := l.v_ ++ [Ptr.eobject x] }, heap := heap,
        calls := (EObjectEList.Inverse.inverseAdd B l heap x).2 ++
          l.notifyCalls heap EventType.ADD Ptr.null (Ptr.eobject x) l.v_.length } := by
  unfold EObjectEList.addUnique EObjectEList.notifyCalls
  simp only [dynamic_pointer_cast, Inverse_inverseAdd_eq, isNotificationRequired_with,
    createNotification_with, dispatchNotification_with, getOwner_with, BasicEList.addUnique,
    BasicEList.size]
  split <;> simp [dispatchNotification_fst, List.append_assoc]

theorem addUniqueAt_eq (B : Int) (l : EObjectEList) (heap : Heap) (i : Nat) (x : ObjId)
    (hi : i ≤ l.v_.length) :
    EObjectEList.addUniqueAt B l heap i (Ptr.eobject x) =
      some { value := (), list := { l with v_ := l.v_.insertIdx i (Ptr.eobject x) },
             heap := heap,
             calls := (EObjectEList.Inverse.inverseAdd B l heap x).2 ++
               l.notifyCalls heap EventType.ADD Ptr.null (Ptr.eobject x) i } := by
  unfold EObjectEList.addUniqueAt EObjectEList.notifyCalls
  simp only [dynamic_pointer_cast, BasicEList.addUniqueAt, BasicEList.size, hi, if_true,
    Inverse_inverseAdd_eq, isNotificationRequired_with, createNotification_with,
    dispatchNotification_with, getOwner_with]
  split <;> simp [dispatchNotification_fst, List.append_assoc]

theorem remove_eq (B : Int) (l : EObjectEList) (heap : Heap) (i : Nat) (old : Ptr)
    (hi : l.v_[i]? = some old) :
    EObjectEList.remove B l heap i =
      some { value := old, list := { l with v_ := l.v_.eraseIdx i }, heap := heap,
             calls :=
               (match dynamic_pointer_cast old with
                | some q => (EObjectEList.Inverse.inverseRemove B l heap q).2
                | none => []) ++
               l.notifyCalls heap EventType.REMOVE old Ptr.null i } := by
  unfold EObjectEList.remove EObjectEList.notifyCalls
  simp only [BasicEList.remove, hi]
  cases hc : dynamic_pointer_cast old <;>
    simp only [Inverse_inverseRemove_eq, isNotificationRequired_with,
      createNotification_with, dispatchNotification_with, getOwner_with] <;>
    split <;> simp [dispatchNotification_fst, List.append_assoc]

theorem setUnique_eq (B : Int) (l : EObjectEList) (heap : Heap) (i : Nat) (old new : Ptr)
    (hi : l.v_[i]? = some old) :
    EObjectEList.setUnique B l heap i new =
      some { value := old, list := { l with v_ := l.v_.set i new }, heap := heap,
             calls :=
               (if new ≠ old then
                  (match dynamic_pointer_cast old with
                   | some q => (EObjectEList.Inverse.inverseRemove B l heap q).2
                   | none => []) ++
                  (match dynamic_pointer_cast new with
                   | some q => (EObjectEList.Inverse.inverseAdd B l heap q).2
                   | none => [])
                else []) ++
               l.notifyCalls heap EventType.SET old new i } := by
  unfold EObjectEList.setUnique EObjectEList.notifyCalls
  simp only [BasicEList.setUnique, hi]
  cases ho : dynamic_pointer_cast old <;>
    cases hn : dynamic_pointer_cast new <;>
    by_cases hd : new = old <;>
    simp only [hd, Inverse_inverseRemove_eq, Inverse_inverseAdd_eq, ne_eq,
      not_true_eq_false, not_false_eq_true, if_true, if_false, isNotificationRequired_with,
      createNotification_with, dispatchNotification_with, getOwner_with] <;>
    split <;> simp [dispatchNotification_fst, List.append_assoc]

theorem notifyCalls_eq (l : EObjectEList) (heap : Heap) (k : EventType) (old new : Ptr)
    (i : Nat) :
    l.notifyCalls heap k old new i =
      (match heap l.owner_ with
       | some o =>
         if o.eNotificationRequired then
           Event.make_ENotification
               { eventType := k, notifier := l.owner_,
                 feature := o.eClass.getEStructuralFeature l.featureID_,
                 oldValue := old, newValue := new, position := i } ::
             o.eAdapters_.map (fun a => Event.notifyChanged a
               (some { eventType := k, notifier := l.owner_,
                       feature := o.eClass.getEStructuralFeature l.featureID_,
                       oldValue := old, newValue := new, position := i }))
         else []
       | none => []) := by
  cases ho : heap l.owner_ with
  | none =>
    exact notifyCalls_of_not_required l heap (isNotificationRequired_of_expired l heap ho) k old
      new i
  | some o =>
    cases hr : o.eNotificationRequired with
    | true =>
      simp only [hr, if_true]
      exact notifyCalls_of_required l heap o ho hr k old new i
    | false =>
      have h : l.isNotificationRequired heap = false := by
        rw [isNotificationRequired_of_owner l heap o ho, hr]
      simp only [hr, Bool.false_eq_true, if_false]
      exact notifyCalls_of_not_required l heap h k old new i

theorem filter_isNotification_notifyCalls (l : EObjectEList) (heap : Heap) (k : EventType)
    (old new : Ptr) (i : Nat) :
    (l.notifyCalls heap k old new i).filter Event.isNotification =
      l.notifyCalls heap k old new i := by
  rw [List.filter_eq_self]
  intro e he
  unfold EObjectEList.notifyCalls at he
  split at he
  · unfold EObjectEList.createNotification EObjectEList.dispatchNotification at he
    split at he
    · simp only [BasicEObject.eNotify, List.singleton_append, List.mem_cons, List.mem_map] at he
      rcases he with he | ⟨a, _, he⟩ <;> subst he <;> rfl
    · simp at he
  · simp at he

theorem getOwner_of_expired (l : EObjectEList) (heap : Heap) (ho : heap l.owner_ = none) :
    l.getOwner heap = none := by
  unfold EObjectEList.getOwner
  rw [ho]

theorem perform_calls_of_not_required (B : Int) (l : EObjectEList) (heap : Heap) (c : Call)
    (s : Step Unit) (hreq : l.isNotificationRequired heap = false)
    (h : EObjectEList.perform B l heap c = some s) :
    s.calls.filter Event.isNotification = [] := by
  cases c with
  | addUnique e =>
    simp only [EObjectEList.perform, Option.some.injEq] at h
    subst h
    cases e with
    | eobject x =>
      rw [addUnique_eq, notifyCalls_of_not_required l heap hreq]
      simp [filter_isNotification_inverseAdd]
    | null => rfl
    | foreign v => rfl
  | addUniqueAt i e =>
    simp only [EObjectEList.perform] at h
    cases e with
    | eobject x =>
      by_cases hi : i ≤ l.v_.length
      · rw [addUniqueAt_eq B l heap i x hi, notifyCalls_of_not_required l heap hreq] at h
        simp only [Option.some.injEq] at h
        subst h
        simp [filter_isNotification_inverseAdd]
      · simp [EObjectEList.addUniqueAt, dynamic_pointer_cast, BasicEList.addUniqueAt,
          BasicEList.size, hi] at h
    | null =>
      simp only [EObjectEList.addUniqueAt, dynamic_pointer_cast, Option.some.injEq] at h
      subst h
      rfl
    | foreign v =>
      simp only [EObjectEList.addUniqueAt, dynamic_pointer_cast, Option.some.injEq] at h
      subst h
      rfl
  | remove i =>
    simp only [EObjectEList.perform] at h
    cases hi : l.v_[i]? with
    | none => simp [EObjectEList.remove, BasicEList.remove, hi] at h
    | some old =>
      rw [remove_eq B l heap i old hi, notifyCalls_of_not_required l heap hreq] at h
      simp only [Option.map_some', Option.some.injEq] at h
      subst h
      cases hc : dynamic_pointer_cast old <;> simp [filter_isNotification_inverseRemove]
  | setUnique i new =>
    simp only [EObjectEList.perform] at h
    cases hi : l.v_[i]? with
    | none => simp [EObjectEList.setUnique, BasicEList.setUnique, hi] at h
    | some old =>
      rw [setUnique_eq B l heap i old new hi, notifyCalls_of_not_required l heap hreq] at h
      simp only [Option.map_some', Option.some.injEq] at h
      subst h
      cases ho : dynamic_pointer_cast old <;> cases hn : dynamic_pointer_cast new <;>
        by_cases hd : new = old <;>
        simp [hd, filter_isNotification_inverseRemove, filter_isNotification_inverseAdd]

theorem set_of_getElem? {α : Type} (xs : List α) (i : Nat) (v : α) (h : xs[i]? = some v) :
    xs.set i v = xs := by
  induction xs generalizing i with
  | nil => rfl
  | cons a t ih =>
    cases i with
    | zero =>
      simp only [List.getElem?_cons_zero, Option.some.injEq] at h
      subst h
      rfl
    | succ j =>
      simp only [List.getElem?_cons_succ] at h
      simp only [List.set_cons_succ, ih j h]

/-! ## Identifier selection -/

/-- C2: for every list and every reflective object `x`, the inverse updates `addUnique( x )`
issues are exactly one `eInverseAdd` on `x` when `inverse` is true, with `inverseFeatureID_`
when `opposite` is true and `EOPPOSITE_FEATURE_BASE - featureID_` when it is false, and none
at all when `inverse` is false; the list's add path is not entered again: afterwards the
list is the one before the call with `x` stored once, at the end, and the heap is
untouched. -/
theorem addUnique_identifier_selection (B : Int) (l : EObjectEList) (heap : Heap)
    (x : ObjId) :
    (EObjectEList.addUnique B l heap (Ptr.eobject x)).calls.filter Event.isInverse =
        (if l.inverse then
          [Event.eInverseAdd x (l.getOwner heap)
            (if l.opposite then l.inverseFeatureID_ else intSub B l.featureID_)]
        else []) ∧
      (EObjectEList.addUnique B l heap (Ptr.eobject x)).list =
        { l with v_ := l.v_ ++ [Ptr.eobject x] } ∧
      (EObjectEList.addUnique B l heap (Ptr.eobject x)).heap = heap := by
  refine ⟨?_, ?_, addUnique_heap B l heap _⟩
  · unfold EObjectEList.addUnique
    simp only [dynamic_pointer_cast, Inverse_inverseAdd_eq, getOwner_with]
    split
    · simp only [List.filter_append, filter_isInverse_createNotification,
        filter_isInverse_dispatchNotification, List.append_nil]
      cases l.inverse <;> simp [Event.isInverse, Event.isInverseAdd]
    · cases l.inverse <;> simp [Event.isInverse, Event.isInverseAdd]
  · unfold EObjectEList.addUnique
    simp only [dynamic_pointer_cast, BasicEList.addUnique]
    split <;> rfl

/-! ## Notification gating -/

/-- C4: `eNotificationRequired()` is true if and only if the delivery flag is set and the
adapter collection holds at least one adapter; a freshly constructed object answers
false. -/
theorem eNotificationRequired_iff (o : BasicEObject) (c : EClass) :
    (o.eNotificationRequired = true ↔ (o.eDeliver_ = true ∧ 0 < o.eAdapters_.length)) ∧
      (BasicEObject.construct c).eNotificationRequired = false := by
  constructor
  · simp [BasicEObject.eNotificationRequired]
  · rfl

/-- C3: for every list and every mutating call (`addUnique`, `addUnique` at an index,
`remove`, `setUnique`), if the owner's delivery flag is false or the owner has no adapter,
the call constructs no notification and delivers none to any adapter. -/
theorem no_notification_when_gated (B : Int) (l : EObjectEList) (heap : Heap)
    (o : BasicEObject) (c : Call) (s : Step Unit) (ho : heap l.owner_ = some o)
    (hg : o.eDeliver_ = false ∨ o.eAdapters_.length = 0)
    (h : EObjectEList.perform B l heap c = some s) :
    s.calls.filter Event.isNotification = [] := by
  apply perform_calls_of_not_required B l heap c s _ h
  rw [isNotificationRequired_of_owner l heap o ho]
  rcases hg with hg | hg <;> simp [BasicEObject.eNotificationRequired, hg]

/-- C3 at the spec's scenario with delivery switched off: replacing node 1 by node 2 in
`folder.children` issues the two inverse updates and nothing else. -/
theorem no_notification_when_gated_witness :
    ∃ s, EObjectEList.perform (-1) { folderChildren with v_ := [Ptr.eobject 1] } folderHeap
        (Call.setUnique 0 (Ptr.eobject 2)) = some s ∧
      s.calls = [Event.eInverseRemove 1 (some 0) (-1), Event.eInverseAdd 2 (some 0) (-1)] ∧
      s.calls.filter Event.isNotification = [] :=
  ⟨_, rfl, rfl,
    no_notification_when_gated (-1) { folderChildren with v_ := [Ptr.eobject 1] } folderHeap
      (BasicEObject.construct folderClass) (Call.setUnique 0 (Ptr.eobject 2)) _ rfl
      (Or.inl rfl) rfl⟩

/-! ## Add -/

/-- C5: for every list whose owner requires notification and every reflective object `x`,
`addUnique( x )` constructs exactly one notification, of kind ADD with old value null, new
value `x` and position the size of the list before the insertion, and delivers it once to
each adapter of the owner; `addUnique( i, x )` does the same with position `i`; in both
cases `x` is afterwards stored at that position. -/
theorem add_notification_content (B : Int) (l : EObjectEList) (heap : Heap)
    (o : BasicEObject) (x : ObjId) (i : Nat) (ho : heap l.owner_ = some o)
    (hr : o.eNotificationRequired = true) (hi : i ≤ l.size) :
    ((EObjectEList.addUnique B l heap (Ptr.eobject x)).calls.filter Event.isNotification =
        Event.make_ENotification
            { eventType := EventType.ADD, notifier := l.owner_,
              feature := o.eClass.getEStructuralFeature l.featureID_,
              oldValue := Ptr.null, newValue := Ptr.eobject x, position := l.size } ::
          o.eAdapters_.map (fun a => Event.notifyChanged a
            (some { eventType := EventType.ADD, notifier := l.owner_,
                    feature := o.eClass.getEStructuralFeature l.featureID_,
                    oldValue := Ptr.null, newValue := Ptr.eobject x, position := l.size })) ∧
      (EObjectEList.addUnique B l heap (Ptr.eobject x)).list.v_[l.size]? =
        some (Ptr.eobject x) ∧
      (EObjectEList.addUnique B l heap (Ptr.eobject x)).list.size = l.size + 1) ∧
    (∃ s, EObjectEList.addUniqueAt B l heap i (Ptr.eobject x) = some s ∧
      s.calls.filter Event.isNotification =
        Event.make_ENotification
            { eventType := EventType.ADD, notifier := l.owner_,
              feature := o.eClass.getEStructuralFeature l.featureID_,
              oldValue := Ptr.null, newValue := Ptr.eobject x, position := i } ::
          o.eAdapters_.map (fun a => Event.notifyChanged a
            (some { eventType := EventType.ADD, notifier := l.owner_,
                    feature := o.eClass.getEStructuralFeature l.featureID_,
                    oldValue := Ptr.null, newValue := Ptr.eobject x, position := i })) ∧
      s.list.v_[i]? = some (Ptr.eobject x) ∧
      s.list.size = l.size + 1) := by
  have hi2 : i ≤ l.v_.length := hi
  refine ⟨⟨?_, ?_, ?_⟩, ⟨_, addUniqueAt_eq B l heap i x hi2, ?_, ?_, ?_⟩⟩
  · rw [addUnique_eq, List.filter_append, filter_isNotification_inverseAdd,
      filter_isNotification_notifyCalls, notifyCalls_of_required l heap o ho hr]
    rfl
  · rw [addUnique_eq]
    exact List.getElem?_concat_length l.v_ (Ptr.eobject x)
  · rw [addUnique_eq]
    simp [BasicEList.size]
  · rw [List.filter_append, filter_isNotification_inverseAdd,
      filter_isNotification_notifyCalls, notifyCalls_of_required l heap o ho hr]
    rfl
  · have hlen : i < (l.v_.insertIdx i (Ptr.eobject x)).length := by
      rw [List.length_insertIdx i l.v_ hi2]
      omega
    show (l.v_.insertIdx i (Ptr.eobject x))[i]? = some (Ptr.eobject x)
    rw [List.getElem?_eq_getElem hlen, List.getElem_insertIdx_self l.v_ (Ptr.eobject x) i hi2]
  · show (l.v_.insertIdx i (Ptr.eobject x)).length = l.v_.length + 1
    exact List.length_insertIdx i l.v_ hi2

/-- C5 at the spec's scenario with two adapters on the folder: node 2 is inserted in front
of node 1. -/
theorem add_notification_content_witness :
    (EObjectEList.addUniqueAt (-1) { folderChildren with v_ := [Ptr.eobject 1] } observedHeap 0
        (Ptr.eobject 2)).map (fun s => (s.list.v_, s.calls.length)) =
        some ([Ptr.eobject 2, Ptr.eobject 1], 4) ∧
      ∃ s, EObjectEList.addUniqueAt (-1) { folderChildren with v_ := [Ptr.eobject 1] }
          observedHeap 0 (Ptr.eobject 2) = some s ∧
        s.calls.filter Event.isNotification =
          Event.make_ENotification
              { eventType := EventType.ADD, notifier := 0,
                feature := folderClass.getEStructuralFeature 0,
                oldValue := Ptr.null, newValue := Ptr.eobject 2, position := 0 } ::
            [10, 11].map (fun a => Event.notifyChanged a
              (some { eventType := EventType.ADD, notifier := 0,
                      feature := folderClass.getEStructuralFeature 0,
                      oldValue := Ptr.null, newValue := Ptr.eobject 2, position := 0 })) ∧
        s.list.v_[0]? = some (Ptr.eobject 2) ∧
        s.list.size = 2 :=
  ⟨rfl,
    (add_notification_content (-1) { folderChildren with v_ := [Ptr.eobject 1] } observedHeap
      { BasicEObject.construct folderClass with eDeliver_ := true, eAdapters_ := [10, 11] }
      2 0 rfl rfl (Nat.zero_le _)).2⟩

/-! ## Remove and replace -/

/-- C6: for every list and every valid index `i`, `remove( i )` returns the element that was
at position `i` and leaves the elements before and after it in their order; when that
element is a reflective object and `inverse` is true it issues one `eInverseRemove` on it,
with the identifier `addUnique` uses (`inverseFeatureID_` when `opposite` is true,
`EOPPOSITE_FEATURE_BASE - featureID_` otherwise); when the owner requires notification it
then constructs one REMOVE notification with the removed element as old value, null as
new value and position `i`, and delivers it to each adapter; nothing else is called. -/
theorem remove_contract (B : Int) (l : EObjectEList) (heap : Heap) (i : Nat)
    (hi : i < l.size) :
    EObjectEList.remove B l heap i =
      some { value := l.v_.get ⟨i, hi⟩,
             list := { l with v_ := l.v_.take i ++ l.v_.drop (i + 1) },
             heap := heap,
             calls :=
               (match dynamic_pointer_cast (l.v_.get ⟨i, hi⟩) with
                | some q =>
                  if l.inverse then
                    [Event.eInverseRemove q (l.getOwner heap)
                      (if l.opposite then l.inverseFeatureID_ else intSub B l.featureID_)]
                  else []
                | none => []) ++
               (match heap l.owner_ with
                | some o =>
                  if o.eNotificationRequired then
                    Event.make_ENotification
                        { eventType := EventType.REMOVE, notifier := l.owner_,
                          feature := o.eClass.getEStructuralFeature l.featureID_,
                          oldValue := l.v_.get ⟨i, hi⟩, newValue := Ptr.null,
                          position := i } ::
                      o.eAdapters_.map (fun a => Event.notifyChanged a
                        (some { eventType := EventType.REMOVE, notifier := l.owner_,
                                feature := o.eClass.getEStructuralFeature l.featureID_,
                                oldValue := l.v_.get ⟨i, hi⟩, newValue := Ptr.null,
                                position := i }))
                  else []
                | none => []) } := by
  have hget : l.v_[i]? = some (l.v_.get ⟨i, hi⟩) := List.getElem?_eq_getElem hi
  rw [remove_eq B l heap i _ hget, notifyCalls_eq, List.eraseIdx_eq_take_drop_succ]
  cases hc : dynamic_pointer_cast (l.v_.get ⟨i, hi⟩) <;>
    simp only [Inverse_inverseRemove_eq]

/-- C6 at the spec's scenario: `remove( 2 )` on a three-element containment list whose owner
delivers to two adapters reports position 2. -/
theorem remove_contract_witness :
    (2 < ({ folderChildren with
              v_ := [Ptr.eobject 1, Ptr.foreign 5, Ptr.eobject 2] } : EObjectEList).size) ∧
      (EObjectEList.remove (-1)
          { folderChildren with v_ := [Ptr.eobject 1, Ptr.foreign 5, Ptr.eobject 2] }
          observedHeap 2).map (fun s => (s.value, s.list.v_, s.calls)) =
        some (Ptr.eobject 2, [Ptr.eobject 1, Ptr.foreign 5],
          [Event.eInverseRemove 2 (some 0) (-1),
           Event.make_ENotification
             { eventType := EventType.REMOVE, notifier := 0,
               feature := some { name := "children", featureID := 0, isEReference := true,
                                 eOpposite := none },
               oldValue := Ptr.eobject 2, newValue := Ptr.null, position := 2 },
           Event.notifyChanged 10
             (some { eventType := EventType.REMOVE, notifier := 0,
                     feature := some { name := "children", featureID := 0,
                                       isEReference := true, eOpposite := none },
                     oldValue := Ptr.eobject 2, newValue := Ptr.null, position := 2 }),
           Event.notifyChanged 11
             (some { eventType := EventType.REMOVE, notifier := 0,
                     feature := some { name := "children", featureID := 0,
                                       isEReference := true, eOpposite := none },
                     oldValue := Ptr.eobject 2, newValue := Ptr.null, position := 2 })]) :=
  ⟨by decide,
    by
      rw [remove_contract (-1)
        { folderChildren with v_ := [Ptr.eobject 1, Ptr.foreign 5, Ptr.eobject 2] }
        observedHeap 2 (by decide)]
      rfl⟩

/-- C7: for every list, valid index `i` and value `v` that is the element currently at `i`,
`setUnique( i, v )` returns `v`, leaves the list as it is and issues no `eInverseAdd` and no
`eInverseRemove`; when the owner requires notification it still constructs one SET
notification with old value `v`, new value `v` and position `i` and delivers it to each
adapter. -/
theorem setUnique_identity_short_circuit (B : Int) (l : EObjectEList) (heap : Heap)
    (i : Nat) (v : Ptr) (hv : l.v_[i]? = some v) :
    EObjectEList.setUnique B l heap i v =
      some { value := v, list := l, heap := heap,
             calls :=
               (match heap l.owner_ with
                | some o =>
                  if o.eNotificationRequired then
                    Event.make_ENotification
                        { eventType := EventType.SET, notifier := l.owner_,
                          feature := o.eClass.getEStructuralFeature l.featureID_,
                          oldValue := v, newValue := v, position := i } ::
                      o.eAdapters_.map (fun a => Event.notifyChanged a
                        (some { eventType := EventType.SET, notifier := l.owner_,
                                feature := o.eClass.getEStructuralFeature l.featureID_,
                                oldValue := v, newValue := v, position := i }))
                  else []
                | none => []) } := by
  rw [setUnique_eq B l heap i v v hv, notifyCalls_eq, set_of_getElem? l.v_ i v hv]
  simp

/-- C7 at the spec's scenario: replacing node 1 by itself, with two adapters on the
folder. -/
theorem setUnique_identity_short_circuit_witness :
    (EObjectEList.setUnique (-1) { folderChildren with v_ := [Ptr.eobject 1] } observedHeap 0
        (Ptr.eobject 1)).map (fun s => (s.value, s.list.v_, s.calls.filter Event.isInverse,
          s.calls.length)) =
      some (Ptr.eobject 1, [Ptr.eobject 1], [], 3) := by
  rw [setUnique_identity_short_circuit (-1) { folderChildren with v_ := [Ptr.eobject 1] }
    observedHeap 0 (Ptr.eobject 1) rfl]
  rfl

/-- C8: for every list with `inverse` true, valid index `i` and reflective object `n` that
is a different object from the reflective object `o` currently at `i`, `setUnique( i, n )`
returns `o`, stores `n` at `i`, and issues exactly one `eInverseRemove` on `o` followed by
exactly one `eInverseAdd` on `n`, both with the identifier the policy selects; when the
owner requires notification it then constructs one SET notification with old value `o`, new
value `n` and position `i` and delivers it to each adapter. -/
theorem setUnique_replace_ordering (B : Int) (l : EObjectEList) (heap : Heap) (i : Nat)
    (o n : ObjId) (hinv : l.inverse = true) (ho : l.v_[i]? = some (Ptr.eobject o))
    (hne : n ≠ o) :
    EObjectEList.setUnique B l heap i (Ptr.eobject n) =
      some { value := Ptr.eobject o,
             list := { l with v_ := l.v_.set i (Ptr.eobject n) },
             heap := heap,
             calls :=
               [Event.eInverseRemove o (l.getOwner heap)
                  (if l.opposite then l.inverseFeatureID_ else intSub B l.featureID_),
                Event.eInverseAdd n (l.getOwner heap)
                  (if l.opposite then l.inverseFeatureID_ else intSub B l.featureID_)] ++
               (match heap l.owner_ with
                | some w =>
                  if w.eNotificationRequired then
                    Event.make_ENotification
                        { eventType := EventType.SET, notifier := l.owner_,
                          feature := w.eClass.getEStructuralFeature l.featureID_,
                          oldValue := Ptr.eobject o, newValue := Ptr.eobject n,
                          position := i } ::
                      w.eAdapters_.map (fun a => Event.notifyChanged a
                        (some { eventType := EventType.SET, notifier := l.owner_,
                                feature := w.eClass.getEStructuralFeature l.featureID_,
                                oldValue := Ptr.eobject o, newValue := Ptr.eobject n,
                                position := i }))
                  else []
                | none => []) } := by
  have hd : Ptr.eobject n ≠ Ptr.eobject o := by
    intro h
    exact hne (Ptr.eobject.inj h)
  rw [setUnique_eq B l heap i (Ptr.eobject o) (Ptr.eobject n) ho, notifyCalls_eq]
  simp [hd, dynamic_pointer_cast, Inverse_inverseRemove_eq, Inverse_inverseAdd_eq, hinv]

/-- C8 at the spec's scenario: node 1 is replaced by node 2 in `folder.children`. -/
theorem setUnique_replace_ordering_witness :
    (EObjectEList.setUnique (-1) { folderChildren with v_ := [Ptr.eobject 1] } folderHeap 0
        (Ptr.eobject 2)).map (fun s => (s.value, s.list.v_, s.calls)) =
      some (Ptr.eobject 1, [Ptr.eobject 2],
        [Event.eInverseRemove 1 (some 0) (-1), Event.eInverseAdd 2 (some 0) (-1)]) := by
  rw [setUnique_replace_ordering (-1) { folderChildren with v_ := [Ptr.eobject 1] } folderHeap
    0 1 2 rfl rfl (by decide)]
  rfl

/-! ## Values that are not reflective objects -/

/-- C9, as stated, fails: `addUnique` and `addUnique( 0, . )` of a value whose cast to
`BasicEObject` fails leave the empty list `folder.children` empty, where the claim asks for
the size to grow by one and the value to sit at the insertion position. -/
theorem non_reflective_value_not_stored :
    (EObjectEList.addUnique (-1) folderChildren folderHeap (Ptr.foreign 7)).list.size =
        folderChildren.size ∧
      (EObjectEList.addUnique (-1) folderChildren folderHeap (Ptr.foreign 7)).list.v_[
          folderChildren.size]? = none ∧
      (EObjectEList.addUniqueAt (-1) folderChildren folderHeap 0 (Ptr.foreign 7)).map
          (fun s => (s.list.size, s.list.v_[0]?)) = some (folderChildren.size, none) := by
  refine ⟨rfl, rfl, rfl⟩

/-- C9, amended: for every list and every value `v` that is not a reflective object (the
dynamic cast to `BasicEObject` fails), `addUnique( v )` and `addUnique( i, v )` raise no
error and perform no inverse-update call for `v`, and they do not store `v`: the whole body
is guarded by the cast, so the list and the heap are left as they are and nothing is
called. -/
theorem addUnique_non_reflective_skipped (B : Int) (l : EObjectEList) (heap : Heap)
    (v : Ptr) (i : Nat) (hv : dynamic_pointer_cast v = none) :
    EObjectEList.addUnique B l heap v =
        { value := (), list := l, heap := heap, calls := [] } ∧
      EObjectEList.addUniqueAt B l heap i v =
        some { value := (), list := l, heap := heap, calls := [] } := by
  unfold EObjectEList.addUnique EObjectEList.addUniqueAt
  rw [hv]
  exact ⟨rfl, rfl⟩

/-- C9, amended, at a null pointer and an index far beyond the size of the list. -/
theorem addUnique_non_reflective_skipped_witness :
    dynamic_pointer_cast Ptr.null = none ∧
      (EObjectEList.addUnique (-1) folderChildren folderHeap Ptr.null =
          { value := (), list := folderChildren, heap := folderHeap, calls := [] } ∧
        EObjectEList.addUniqueAt (-1) folderChildren folderHeap 9 Ptr.null =
          some { value := (), list := folderChildren, heap := folderHeap, calls := [] }) :=
  ⟨rfl, addUnique_non_reflective_skipped (-1) folderChildren folderHeap Ptr.null 9 rfl⟩

/-! ## Destroyed owner -/

/-- C10, as stated, fails: with the folder destroyed, `folder.children.addUnique( node )`
still issues `node->eInverseAdd( nullptr, EOPPOSITE_FEATURE_BASE - 0 )`, and `remove( 0 )`
still issues the matching `eInverseRemove`, where the claim asks for no inverse call. -/
theorem expired_owner_still_inverse_updates :
    orphanHeap folderChildren.owner_ = none ∧
      (EObjectEList.addUnique (-1) folderChildren orphanHeap (Ptr.eobject 1)).calls =
        [Event.eInverseAdd 1 none (-1)] ∧
      (EObjectEList.remove (-1) { folderChildren with v_ := [Ptr.eobject 1] } orphanHeap
          0).map (fun s => s.calls) = some [Event.eInverseRemove 1 none (-1)] := by
  refine ⟨rfl, rfl, rfl⟩

/-- C10, amended: for every list whose weak owner reference has expired, `addUnique` and
`addUnique( index, . )` of a reflective object, `remove` and `setUnique` perform the
backing-sequence mutation, and no notification is created or dispatched. On a list with
`inverse` false nothing at all is called; on a list with `inverse` true the inverse-add and
inverse-remove calls on reflective elements are the ones of a live owner, with a null
pointer in the place of the owner. -/
theorem expired_owner_calls (B : Int) (l : EObjectEList) (heap : Heap)
    (hx : heap l.owner_ = none) :
    (∀ x : ObjId,
      EObjectEList.addUnique B l heap (Ptr.eobject x) =
        { value := (), list := { l with v_ := l.v_ ++ [Ptr.eobject x] }, heap := heap,
          calls :=
            if l.inverse then
              [Event.eInverseAdd x none
                (if l.opposite then l.inverseFeatureID_ else intSub B l.featureID_)]
            else [] }) ∧
    (∀ (i : Nat) (x : ObjId), i ≤ l.size →
      EObjectEList.addUniqueAt B l heap i (Ptr.eobject x) =
        some { value := (), list := { l with v_ := l.v_.insertIdx i (Ptr.eobject x) },
               heap := heap,
               calls :=
                 if l.inverse then
                   [Event.eInverseAdd x none
                     (if l.opposite then l.inverseFeatureID_ else intSub B l.featureID_)]
                 else [] }) ∧
    (∀ (i : Nat) (old : Ptr), l.v_[i]? = some old →
      EObjectEList.remove B l heap i =
        some { value := old, list := { l with v_ := l.v_.eraseIdx i }, heap := heap,
               calls :=
                 match dynamic_pointer_cast old with
                 | some q =>
                   if l.inverse then
                     [Event.eInverseRemove q none
                       (if l.opposite then l.inverseFeatureID_ else intSub B l.featureID_)]
                   else []
                 | none => [] }) ∧
    (∀ (i : Nat) (old new : Ptr), l.v_[i]? = some old →
      EObjectEList.setUnique B l heap i new =
        some { value := old, list := { l with v_ := l.v_.set i new }, heap := heap,
               calls :=
                 if new ≠ old then
                   (match dynamic_pointer_cast old with
                    | some q =>
                      if l.inverse then
                        [Event.eInverseRemove q none
                          (if l.opposite then l.inverseFeatureID_
                           else intSub B l.featureID_)]
                      else []
                    | none => []) ++
                   (match dynamic_pointer_cast new with
                    | some q =>
                      if l.inverse then
                        [Event.eInverseAdd q none
                          (if l.opposite then l.inverseFeatureID_
                           else intSub B l.featureID_)]
                      else []
                    | none => [])
                 else [] }) := by
  have hreq := isNotificationRequired_of_expired l heap hx
  have hown := getOwner_of_expired l heap hx
  refine ⟨?_, ?_, ?_, ?_⟩
  · intro x
    rw [addUnique_eq, notifyCalls_of_not_required l heap hreq, Inverse_inverseAdd_eq, hown]
    simp
  · intro i x hi
    rw [addUniqueAt_eq B l heap i x hi, notifyCalls_of_not_required l heap hreq,
      Inverse_inverseAdd_eq, hown]
    simp
  · intro i old hi
    rw [remove_eq B l heap i old hi, notifyCalls_of_not_required l heap hreq]
    cases hc : dynamic_pointer_cast old <;> simp [Inverse_inverseRemove_eq, hown]
  · intro i old new hi
    rw [setUnique_eq B l heap i old new hi, notifyCalls_of_not_required l heap hreq]
    cases ho : dynamic_pointer_cast old <;> cases hn : dynamic_pointer_cast new <;>
      simp [Inverse_inverseRemove_eq, Inverse_inverseAdd_eq, hown]

/-- C10, amended, with the folder destroyed: node 2 replaces node 1 in `folder.children`. -/
theorem expired_owner_calls_witness :
    orphanHeap folderChildren.owner_ = none ∧
      (EObjectEList.setUnique (-1) { folderChildren with v_ := [Ptr.eobject 1] } orphanHeap 0
          (Ptr.eobject 2)).map (fun s => (s.value, s.list.v_, s.calls)) =
        some (Ptr.eobject 1, [Ptr.eobject 2],
          [Event.eInverseRemove 1 none (-1), Event.eInverseAdd 2 none (-1)]) :=
  ⟨rfl, by
    rw [(expired_owner_calls (-1) { folderChildren with v_ := [Ptr.eobject 1] } orphanHeap
      rfl).2.2.2 0 (Ptr.eobject 1) (Ptr.eobject 2) rfl]
    rfl⟩

/-! ## Reflective access by feature and by identifier -/

theorem eDerivedStructuralFeatureID_of_mem (self : BasicEObject) (checked : Bool)
    (f : EStructuralFeature) (h : f ∈ self.eClass.eAllStructuralFeatures) :
    self.eDerivedStructuralFeatureID checked f = Except.ok f.featureID := by
  have hany : self.eClass.eAllStructuralFeatures.any
      (fun g => decide (g.address = f.address)) = true := by
    rw [List.any_eq_true]
    exact ⟨f, h, by simp⟩
  unfold BasicEObject.eDerivedStructuralFeatureID
  simp [hany]

theorem eDerivedStructuralFeatureID_ndebug (self : BasicEObject) (f : EStructuralFeature) :
    self.eDerivedStructuralFeatureID false f = Except.ok f.featureID := by
  unfold BasicEObject.eDerivedStructuralFeatureID
  simp

theorem eDerivedOperationID_of_mem (self : BasicEObject) (checked : Bool) (o : EOperation)
    (h : o ∈ self.eClass.eAllOperations) :
    self.eDerivedOperationID checked o = Except.ok o.operationID := by
  have hany : self.eClass.eAllOperations.any
      (fun g => decide (g.address = o.address)) = true := by
    rw [List.any_eq_true]
    exact ⟨o, h, by simp⟩
  unfold BasicEObject.eDerivedOperationID
  simp [hany]

theorem eDerivedOperationID_ndebug (self : BasicEObject) (o : EOperation) :
    self.eDerivedOperationID false o = Except.ok o.operationID := by
  unfold BasicEObject.eDerivedOperationID
  simp

theorem getEStructuralFeature_of_mem (c : EClass) (f : EStructuralFeature)
    (h : f ∈ c.eAllStructuralFeatures) :
    ∃ g, c.getEStructuralFeature f.featureID = some g := by
  have hs : (c.getEStructuralFeature f.featureID).isSome = true := by
    unfold EClass.getEStructuralFeature
    rw [List.find?_isSome]
    exact ⟨f, h, by simp⟩
  exact Option.isSome_iff_exists.mp hs

theorem getEOperation_of_mem (c : EClass) (o : EOperation) (h : o ∈ c.eAllOperations) :
    ∃ g, c.getEOperation o.operationID = some g := by
  have hs : (c.getEOperation o.operationID).isSome = true := by
    unfold EClass.getEOperation
    rw [List.find?_isSome]
    exact ⟨o, h, by simp⟩
  exact Option.isSome_iff_exists.mp hs

/-- C11 fails on the code: the checks on identifiers are assertions, so in a build with
`NDEBUG` nothing is rejected. For every object, `eGet`, `eIsSet`, `eSet`, `eUnset` and
`eInvoke` by id return normally for every feature id and operation id, one of the class or
not; `eGet( feature, resolve, coreType )`, `eIsSet( feature )` and `eInvoke( operation, . )`
return normally for every feature and operation whose own id is non-negative, one of the
class or not. No invalid-feature or invalid-operation failure reaches the caller. -/
theorem invalid_identifier_not_rejected (self : BasicEObject) (featureID operationID : Int)
    (f : EStructuralFeature) (op : EOperation) (resolve coreType : Bool) (v : Any)
    (args : List Any) :
    (self.eGetID false featureID resolve coreType =
        { object := self, result := Except.ok Any.empty } ∧
      self.eIsSetID false featureID = { object := self, result := Except.ok false } ∧
      self.eSetID false featureID v = { object := self, result := Except.ok () } ∧
      self.eUnsetID false featureID = { object := self, result := Except.ok () } ∧
      self.eInvokeID false operationID args =
        { object := self, result := Except.ok Any.empty }) ∧
    (0 ≤ f.featureID →
      self.eGetFeature false f resolve coreType =
          { object := self, result := Except.ok Any.empty } ∧
        self.eIsSetFeature false f = { object := self, result := Except.ok false }) ∧
    (0 ≤ op.operationID →
      self.eInvokeOperation false op args =
        { object := self, result := Except.ok Any.empty }) := by
  refine ⟨⟨?_, ?_, ?_, ?_, ?_⟩, ?_, ?_⟩
  · simp [BasicEObject.eGetID]
  · simp [BasicEObject.eIsSetID]
  · simp [BasicEObject.eSetID]
  · simp [BasicEObject.eUnsetID]
  · simp [BasicEObject.eInvokeID]
  · intro hid
    constructor
    · unfold BasicEObject.eGetFeature
      rw [eDerivedStructuralFeatureID_ndebug]
      simp [hid, BasicEObject.eGetID]
    · unfold BasicEObject.eIsSetFeature
      rw [eDerivedStructuralFeatureID_ndebug]
      simp [hid, BasicEObject.eIsSetID]
  · intro hid
    unfold BasicEObject.eInvokeOperation
    rw [eDerivedOperationID_ndebug]
    simp [hid, BasicEObject.eInvokeID]

/-- C11 on the code, at a folder with a feature (`parent`, id 4), a feature id (7), an
operation (`open`, id 2) and an operation id (3) that the class `Folder` does not have. -/
theorem invalid_identifier_not_rejected_witness :
    (∀ g ∈ (BasicEObject.construct folderClass).eClass.eAllStructuralFeatures,
        g.address ≠ strangerFeature.address ∧ g.featureID ≠ 7) ∧
      (BasicEObject.construct folderClass).eClass.eAllOperations = [] ∧
      (BasicEObject.construct folderClass).eGetID false 7 true false =
        { object := BasicEObject.construct folderClass, result := Except.ok Any.empty } ∧
      (BasicEObject.construct folderClass).eGetFeature false strangerFeature true false =
        { object := BasicEObject.construct folderClass, result := Except.ok Any.empty } ∧
      (BasicEObject.construct folderClass).eInvokeOperation false strangerOperation [] =
        { object := BasicEObject.construct folderClass, result := Except.ok Any.empty } :=
  have h := invalid_identifier_not_rejected (BasicEObject.construct folderClass) 7 3
    strangerFeature strangerOperation true false Any.empty []
  ⟨by decide, rfl, h.1.1, (h.2.1 (by decide)).1, h.2.2 (by decide)⟩

/-- C12 fails on the code: for every object and every structural feature of its class with
a non-negative feature id, in either build, `eSet( feature, value )` and `eUnset( feature )`
reach the overload by id, which returns, and then run into the `throw` that follows it: both
end in the thrown message "The feature ... is not a valid feature" and neither returns
normally. -/
theorem eSet_eUnset_by_feature_throw (self : BasicEObject) (checked : Bool)
    (f : EStructuralFeature) (v : Any) (hf : f ∈ self.eClass.eAllStructuralFeatures)
    (hid : 0 ≤ f.featureID) :
    (self.eSetID checked f.featureID v = { object := self, result := Except.ok () } ∧
      self.eSetFeature checked f v =
        { object := self,
          result := Except.error
            (Failure.thrown ("The feature '" ++ f.name ++ "' is not a valid feature")) }) ∧
    (self.eUnsetID checked f.featureID = { object := self, result := Except.ok () } ∧
      self.eUnsetFeature checked f =
        { object := self,
          result := Except.error
            (Failure.thrown ("The feature '" ++ f.name ++ "' is not a valid feature")) }) := by
  obtain ⟨g, hg⟩ := getEStructuralFeature_of_mem self.eClass f hf
  have h1 := eDerivedStructuralFeatureID_of_mem self checked f hf
  have hset : self.eSetID checked f.featureID v =
      { object := self, result := Except.ok () } := by
    unfold BasicEObject.eSetID
    simp [hg]
  have hunset : self.eUnsetID checked f.featureID =
      { object := self, result := Except.ok () } := by
    unfold BasicEObject.eUnsetID
    simp [hg]
  refine ⟨⟨hset, ?_⟩, ⟨hunset, ?_⟩⟩
  · unfold BasicEObject.eSetFeature
    rw [h1]
    simp only [ge_iff_le, hid, if_true, hset]
  · unfold BasicEObject.eUnsetFeature
    rw [h1]
    simp only [ge_iff_le, hid, if_true, hunset]

/-- C12 on the code, at a folder and its feature `children` (feature id 0), in a build that
checks assertions. -/
theorem eSet_eUnset_by_feature_throw_witness :
    childrenFeature ∈ (BasicEObject.construct folderClass).eClass.eAllStructuralFeatures ∧
      0 ≤ childrenFeature.featureID ∧
      (BasicEObject.construct folderClass).eSetFeature true childrenFeature Any.empty =
        { object := BasicEObject.construct folderClass,
          result := Except.error
            (Failure.thrown "The feature 'children' is not a valid feature") } ∧
      (BasicEObject.construct folderClass).eUnsetFeature true childrenFeature =
        { object := BasicEObject.construct folderClass,
          result := Except.error
            (Failure.thrown "The feature 'children' is not a valid feature") } :=
  have h := eSet_eUnset_by_feature_throw (BasicEObject.construct folderClass) true
    childrenFeature Any.empty (by decide) (by decide)
  ⟨by decide, by decide, h.1.2, h.2.2⟩

/-- C13 fails on the code: `eGet( feature, resolve )` calls `eGet( feature, true )`, which is
the same overload, so for every object, every feature and every value of `resolve` the call
has not returned however deep the calls may go, and neither has `eGet( feature )`, which
enters it; the overload by id is never reached, although on a feature of the class (here
`children` of a folder) it returns the empty value in either build. -/
theorem eGet_by_feature_never_returns (fuel : Nat) (self : BasicEObject)
    (feature : EStructuralFeature) (resolve checked : Bool) :
    BasicEObject.eGetFeatureResolve fuel self feature resolve = none ∧
      BasicEObject.eGetFeatureOnly fuel self feature = none ∧
      ((BasicEObject.construct folderClass).eGetID checked childrenFeature.featureID true
          false).result = Except.ok Any.empty := by
  have h : ∀ (n : Nat) (r : Bool), BasicEObject.eGetFeatureResolve n self feature r = none := by
    intro n
    induction n with
    | zero =>
      intro r
      rfl
    | succ k ih =>
      intro r
      unfold BasicEObject.eGetFeatureResolve
      exact ih true
  refine ⟨h fuel resolve, ?_, ?_⟩
  · cases fuel with
    | zero => rfl
    | succ k =>
      unfold BasicEObject.eGetFeatureOnly
      exact h k true
  · cases checked <;> rfl

/-- C14: for every object, in either build, for every structural feature of its class with
a non-negative feature id `eGet( feature, resolve, coreType )` is
`eGet( id, resolve, coreType )` and `eIsSet( feature )` is `eIsSet( id )`, and for every
operation of its class with a non-negative operation id `eInvoke( operation, arguments )` is
`eInvoke( id, arguments )`; none of these calls fails: they return the empty value, false
and the empty value, and leave the object as it was. -/
theorem by_feature_agrees_with_by_id (self : BasicEObject) (checked resolve coreType : Bool)
    (args : List Any) :
    (∀ f : EStructuralFeature, f ∈ self.eClass.eAllStructuralFeatures → 0 ≤ f.featureID →
      (self.eGetFeature checked f resolve coreType =
          self.eGetID checked f.featureID resolve coreType ∧
        self.eGetID checked f.featureID resolve coreType =
          { object := self, result := Except.ok Any.empty }) ∧
      (self.eIsSetFeature checked f = self.eIsSetID checked f.featureID ∧
        self.eIsSetID checked f.featureID = { object := self, result := Except.ok false })) ∧
    (∀ op : EOperation, op ∈ self.eClass.eAllOperations → 0 ≤ op.operationID →
      self.eInvokeOperation checked op args = self.eInvokeID checked op.operationID args ∧
        self.eInvokeID checked op.operationID args =
          { object := self, result := Except.ok Any.empty }) := by
  constructor
  · intro f hf hid
    obtain ⟨g, hg⟩ := getEStructuralFeature_of_mem self.eClass f hf
    have h1 := eDerivedStructuralFeatureID_of_mem self checked f hf
    refine ⟨⟨?_, ?_⟩, ⟨?_, ?_⟩⟩
    · unfold BasicEObject.eGetFeature
      rw [h1]
      simp only [ge_iff_le, hid, if_true]
    · unfold BasicEObject.eGetID
      simp [hg]
    · unfold BasicEObject.eIsSetFeature
      rw [h1]
      simp only [ge_iff_le, hid, if_true]
    · unfold BasicEObject.eIsSetID
      simp [hg]
  · intro op hop hoid
    obtain ⟨k, hk⟩ := getEOperation_of_mem self.eClass op hop
    have h2 := eDerivedOperationID_of_mem self checked op hop
    refine ⟨?_, ?_⟩
    · unfold BasicEObject.eInvokeOperation
      rw [h2]
      simp only [ge_iff_le, hoid, if_true]
    · unfold BasicEObject.eInvokeID
      simp [hk]

/-- C14 at a folder, whose class has the feature `children` and no operation, and at an
object of class `Parent` with its operation `adopt`, in a build that checks assertions. -/
theorem by_feature_agrees_with_by_id_witness :
    ((BasicEObject.construct folderClass).eGetFeature true childrenFeature false true =
        (BasicEObject.construct folderClass).eGetID true 0 false true ∧
      (BasicEObject.construct folderClass).eGetID true 0 false true =
        { object := BasicEObject.construct folderClass, result := Except.ok Any.empty }) ∧
    ((BasicEObject.construct folderClass).eIsSetFeature true childrenFeature =
        (BasicEObject.construct folderClass).eIsSetID true 0 ∧
      (BasicEObject.construct folderClass).eIsSetID true 0 =
        { object := BasicEObject.construct folderClass, result := Except.ok false }) ∧
    ((BasicEObject.construct parentClass).eInvokeOperation true adoptOperation [Any.int 5] =
        (BasicEObject.construct parentClass).eInvokeID true 0 [Any.int 5] ∧
      (BasicEObject.construct parentClass).eInvokeID true 0 [Any.int 5] =
        { object := BasicEObject.construct parentClass, result := Except.ok Any.empty }) :=
  have hf := (by_feature_agrees_with_by_id (BasicEObject.construct folderClass) true false true
    []).1 childrenFeature (by decide) (by decide)
  have ho := (by_feature_agrees_with_by_id (BasicEObject.construct parentClass) true false true
    [Any.int 5]).2 adoptOperation (by decide) (by decide)
  ⟨hf.1, hf.2, ho⟩

/-! ## Delivery -/

/-- C15: for every object with adapter list `[a1, ..., an]` and every notification `m`,
`eNotify( m )` calls `notifyChanged( m )` on the adapters in registration order, the `k`-th
call on the `k`-th adapter, `n` calls in all, so each registered adapter is called exactly
as often as it is registered; the object (delivery flag, adapter list, container) is left
as it was. -/
theorem eNotify_delivery (o : BasicEObject) (m : Option ENotification) :
    (o.eNotify m).2 = o.eAdapters_.map (fun a => Event.notifyChanged a m) ∧
      (o.eNotify m).2.length = o.eAdapters_.length ∧
      (∀ k : Nat, (o.eNotify m).2[k]? =
        (o.eAdapters_[k]?).map (fun a => Event.notifyChanged a m)) ∧
      (∀ a : AdapterId,
        (o.eNotify m).2.count (Event.notifyChanged a m) = o.eAdapters_.count a) ∧
      (o.eNotify m).1 = o := by
  refine ⟨rfl, ?_, ?_, ?_, rfl⟩
  · simp [BasicEObject.eNotify]
  · intro k
    simp [BasicEObject.eNotify]
  · intro a
    have hinj : Function.Injective (fun a : AdapterId => Event.notifyChanged a m) := by
      intro x y hxy
      exact (Event.notifyChanged.inj hxy).1
    exact List.count_map_of_injective o.eAdapters_ _ hinj a

/-! ## Uniqueness -/

theorem addUnique_nodup (B : Int) (l : EObjectEList) (heap : Heap) (u : Ptr)
    (hn : l.v_.Nodup) (hu : u ∉ l.v_) :
    (EObjectEList.addUnique B l heap u).list.v_.Nodup := by
  cases u with
  | eobject x =>
    rw [addUnique_eq]
    show (l.v_ ++ [Ptr.eobject x]).Nodup
    rw [List.nodup_append]
    refine ⟨hn, List.nodup_singleton _, ?_⟩
    intro a ha hb
    rw [List.mem_singleton] at hb
    subst hb
    exact hu ha
  | null => exact hn
  | foreign v => exact hn

theorem addUniqueAt_nodup (B : Int) (l : EObjectEList) (heap : Heap) (j : Nat) (u : Ptr)
    (hn : l.v_.Nodup) (hu : u ∉ l.v_) (s : Step Unit)
    (h : EObjectEList.addUniqueAt B l heap j u = some s) : s.list.v_.Nodup := by
  cases u with
  | eobject x =>
    by_cases hj : j ≤ l.v_.length
    · rw [addUniqueAt_eq B l heap j x hj] at h
      simp only [Option.some.injEq] at h
      subst h
      show (l.v_.insertIdx j (Ptr.eobject x)).Nodup
      rw [(List.perm_insertIdx (Ptr.eobject x) l.v_ hj).nodup_iff, List.nodup_cons]
      exact ⟨hu, hn⟩
    · simp [EObjectEList.addUniqueAt, dynamic_pointer_cast, BasicEList.addUniqueAt,
        BasicEList.size, hj] at h
  | null =>
    simp only [EObjectEList.addUniqueAt, dynamic_pointer_cast, Option.some.injEq] at h
    subst h
    exact hn
  | foreign v =>
    simp only [EObjectEList.addUniqueAt, dynamic_pointer_cast, Option.some.injEq] at h
    subst h
    exact hn

/-- C16: for every list that already contains a value `x` (by identity), the insertion of
`x`, by `add( x )` or by `add( index, x )`, is rejected: the backing sequence and the heap
are unchanged and nothing is called, so no inverse-add and no ADD notification is produced;
and a list that holds no element twice holds none twice after any insertion. -/
theorem add_rejects_duplicate (B : Int) (l : EObjectEList) (heap : Heap) (x : Ptr)
    (i : Nat) (hx : x ∈ l.v_) :
    EObjectEList.add B l heap x =
        { value := false, list := l, heap := heap, calls := [] } ∧
      EObjectEList.addAt B l heap i x =
        some { value := false, list := l, heap := heap, calls := [] } ∧
      (l.v_.Nodup → ∀ (u : Ptr) (j : Nat),
        (EObjectEList.add B l heap u).list.v_.Nodup ∧
          ∀ s, EObjectEList.addAt B l heap j u = some s → s.list.v_.Nodup) := by
  refine ⟨?_, ?_, ?_⟩
  · unfold EObjectEList.add
    simp [EObjectEList.isUnique, hx]
  · unfold EObjectEList.addAt
    simp [EObjectEList.isUnique, hx]
  · intro hn u j
    by_cases hu : u ∈ l.v_
    · constructor
      · unfold EObjectEList.add
        simp [EObjectEList.isUnique, hu, hn]
      · intro s hs
        unfold EObjectEList.addAt at hs
        simp [EObjectEList.isUnique, hu] at hs
        subst hs
        exact hn
    · have hc : l.v_.contains u = false := by simp [hu]
      constructor
      · unfold EObjectEList.add
        simp only [EObjectEList.isUnique, Bool.true_and, hc, Bool.false_eq_true, if_false]
        exact addUnique_nodup B l heap u hn hu
      · intro s hs
        unfold EObjectEList.addAt at hs
        simp only [EObjectEList.isUnique, Bool.true_and, hc, Bool.false_eq_true,
          if_false] at hs
        cases hr : EObjectEList.addUniqueAt B l heap j u with
        | none => simp [hr] at hs
        | some r =>
          simp only [hr, Option.map_some', Option.some.injEq] at hs
          subst hs
          exact addUniqueAt_nodup B l heap j u hn hu r hr

/-- C16 at the spec's scenario: node 1 is already in `folder.children`; adding it again is
rejected, and adding node 2 in front keeps the elements distinct. -/
theorem add_rejects_duplicate_witness :
    Ptr.eobject 1 ∈ ({ folderChildren with v_ := [Ptr.eobject 1] } : EObjectEList).v_ ∧
      (EObjectEList.add (-1) { folderChildren with v_ := [Ptr.eobject 1] } observedHeap
          (Ptr.eobject 1) =
        { value := false, list := { folderChildren with v_ := [Ptr.eobject 1] },
          heap := observedHeap, calls := [] }) ∧
      (EObjectEList.addAt (-1) { folderChildren with v_ := [Ptr.eobject 1] } observedHeap 0
          (Ptr.eobject 2)).map (fun s => (s.value, s.list.v_)) =
        some (true, [Ptr.eobject 2, Ptr.eobject 1]) :=
  ⟨by decide,
    (add_rejects_duplicate (-1) { folderChildren with v_ := [Ptr.eobject 1] } observedHeap
      (Ptr.eobject 1) 0 (by decide)).1,
    rfl⟩

/-! ## Synthetic identifiers -/

/-- C17: with `EOPPOSITE_FEATURE_BASE` negative and a real feature id `f >= 0` for which
`EOPPOSITE_FEATURE_BASE - f` is an `int` (no signed overflow), the identifier a list with
`inverse` true and `opposite` false passes to `eInverseAdd` and `eInverseRemove` is
`EOPPOSITE_FEATURE_BASE - f`; it is at most `EOPPOSITE_FEATURE_BASE`, hence negative and
different from every real identifier `f2 >= 0`; the mapping is injective on such ids, and
`f` is recovered as `EOPPOSITE_FEATURE_BASE - (EOPPOSITE_FEATURE_BASE - f)`. -/
theorem synthetic_identifier (B f : Int) (l : EObjectEList) (heap : Heap) (q : ObjId)
    (hB : B < 0) (hf : 0 ≤ f) (hrange : -2147483648 ≤ B - f)
    (hinv : l.inverse = true) (hopp : l.opposite = false) (hfeat : l.featureID_ = f) :
    ((EObjectEList.Inverse.inverseAdd B l heap q).2 =
        [Event.eInverseAdd q (l.getOwner heap) (B - f)] ∧
      (EObjectEList.Inverse.inverseRemove B l heap q).2 =
        [Event.eInverseRemove q (l.getOwner heap) (B - f)]) ∧
    (intSub B f = B - f ∧ intSub B f ≤ B ∧ intSub B f < 0 ∧
      ∀ f2 : Int, 0 ≤ f2 → intSub B f ≠ f2) ∧
    (∀ f2 : Int, 0 ≤ f2 → -2147483648 ≤ B - f2 → intSub B f = intSub B f2 → f = f2) ∧
    intSub B (intSub B f) = f := by
  have hsub : intSub B f = B - f := intSub_of_in_range B f hrange (by omega)
  refine ⟨⟨?_, ?_⟩, ⟨hsub, ?_, ?_, ?_⟩, ?_, ?_⟩
  · rw [Inverse_inverseAdd_eq]
    simp [hinv, hopp, hfeat, hsub]
  · rw [Inverse_inverseRemove_eq]
    simp [hinv, hopp, hfeat, hsub]
  · rw [hsub]
    omega
  · rw [hsub]
    omega
  · intro f2 hf2
    rw [hsub]
    omega
  · intro f2 hf2 hr2 heq
    rw [hsub, intSub_of_in_range B f2 hr2 (by omega)] at heq
    omega
  · rw [hsub, intSub_of_in_range B (B - f) (by omega) (by omega)]
    omega

/-- C17 at `folder.children` (feature id 0) with `EOPPOSITE_FEATURE_BASE = -1`, and at the
largest `int` as feature id, where `-1 - f` is the smallest `int`. -/
theorem synthetic_identifier_witness :
    (EObjectEList.Inverse.inverseAdd (-1) folderChildren folderHeap 1).2 =
        [Event.eInverseAdd 1 (folderChildren.getOwner folderHeap) (-1 - 0)] ∧
      intSub (-1) 2147483647 = -1 - 2147483647 ∧
      intSub (-1) (intSub (-1) 2147483647) = 2147483647 :=
  ⟨(synthetic_identifier (-1) 0 folderChildren folderHeap 1 (by decide) (by decide)
      (by decide) rfl rfl rfl).1.1,
    (synthetic_identifier (-1) 2147483647
      { folderChildren with featureID_ := 2147483647 } folderHeap 1 (by decide) (by decide)
      (by decide) rfl rfl rfl).2.1.1,
    (synthetic_identifier (-1) 2147483647
      { folderChildren with featureID_ := 2147483647 } folderHeap 1 (by decide) (by decide)
      (by decide) rfl rfl rfl).2.2.2⟩

/-! ## The containment parameter -/

theorem addUnique_containement (B : Int) (l : EObjectEList) (heap : Heap) (e : Ptr)
    (c : Bool) :
    EObjectEList.addUnique B { l with containement := c } heap e =
      { value := (),
        list := { (EObjectEList.addUnique B l heap e).list with containement := c },
        heap := (EObjectEList.addUnique B l heap e).heap,
        calls := (EObjectEList.addUnique B l heap e).calls } := by
  cases e with
  | eobject x =>
    rw [addUnique_eq, addUnique_eq]
    rfl
  | null => rfl
  | foreign v => rfl

theorem addUniqueAt_containement (B : Int) (l : EObjectEList) (heap : Heap) (i : Nat)
    (e : Ptr) (c : Bool) :
    EObjectEList.addUniqueAt B { l with containement := c } heap i e =
      (EObjectEList.addUniqueAt B l heap i e).map
        (fun s => { value := (), list := { s.list with containement := c }, heap := s.heap,
                    calls := s.calls }) := by
  cases e with
  | eobject x =>
    by_cases hi : i ≤ l.v_.length
    · rw [addUniqueAt_eq B l heap i x hi, addUniqueAt_eq B { l with containement := c } heap i x hi]
      rfl
    · simp [EObjectEList.addUniqueAt, dynamic_pointer_cast, BasicEList.addUniqueAt,
        BasicEList.size, hi]
  | null => rfl
  | foreign v => rfl

theorem remove_containement (B : Int) (l : EObjectEList) (heap : Heap) (i : Nat) (c : Bool) :
    EObjectEList.remove B { l with containement := c } heap i =
      (EObjectEList.remove B l heap i).map
        (fun s => { value := s.value, list := { s.list with containement := c },
                    heap := s.heap, calls := s.calls }) := by
  cases hi : l.v_[i]? with
  | none => simp [EObjectEList.remove, BasicEList.remove, hi]
  | some old =>
    rw [remove_eq B l heap i old hi, remove_eq B { l with containement := c } heap i old hi]
    rfl

theorem setUnique_containement (B : Int) (l : EObjectEList) (heap : Heap) (i : Nat)
    (new : Ptr) (c : Bool) :
    EObjectEList.setUnique B { l with containement := c } heap i new =
      (EObjectEList.setUnique B l heap i new).map
        (fun s => { value := s.value, list := { s.list with containement := c },
                    heap := s.heap, calls := s.calls }) := by
  cases hi : l.v_[i]? with
  | none => simp [EObjectEList.setUnique, BasicEList.setUnique, hi]
  | some old =>
    rw [setUnique_eq B l heap i old new hi,
      setUnique_eq B { l with containement := c } heap i old new hi]
    rfl

theorem perform_containement (B : Int) (l : EObjectEList) (heap : Heap) (call : Call)
    (c : Bool) :
    EObjectEList.perform B { l with containement := c } heap call =
      (EObjectEList.perform B l heap call).map
        (fun s => { value := (), list := { s.list with containement := c }, heap := s.heap,
                    calls := s.calls }) := by
  cases call with
  | addUnique e =>
    simp only [EObjectEList.perform, Option.map_some']
    rw [addUnique_containement]
  | addUniqueAt i e =>
    simp only [EObjectEList.perform]
    rw [addUniqueAt_containement]
  | remove i =>
    simp only [EObjectEList.perform]
    rw [remove_containement]
    cases EObjectEList.remove B l heap i <;> rfl
  | setUnique i new =>
    simp only [EObjectEList.perform]
    rw [setUnique_containement]
    cases EObjectEList.setUnique B l heap i new <;> rfl

theorem performAll_containement (B : Int) (cs : List Call) (c : Bool) :
    ∀ (l : EObjectEList) (heap : Heap),
      EObjectEList.performAll B { l with containement := c } heap cs =
        (EObjectEList.performAll B l heap cs).map
          (fun s => { value := (), list := { s.list with containement := c }, heap := s.heap,
                      calls := s.calls }) := by
  induction cs with
  | nil =>
    intro l heap
    rfl
  | cons call cs ih =>
    intro l heap
    simp only [EObjectEList.performAll]
    rw [perform_containement]
    cases h1 : EObjectEList.perform B l heap call with
    | none => rfl
    | some s1 =>
      simp only [Option.map_some']
      rw [ih s1.list s1.heap]
      cases h2 : EObjectEList.performAll B s1.list s1.heap cs with
      | none => rfl
      | some s2 => rfl

/-- C18: for every owner, feature id, inverse feature id, `inverse` and `opposite` flags,
heap and sequence of mutating calls, the list with `containement` true and the list with
`containement` false fail together or return together, with the same backing sequence, the
same calls (inverse-add, inverse-remove and notifications, with the same arguments, in the
same order) and the same heap; `remove` and `setUnique` return the same value in both. -/
theorem containment_does_not_select (B : Int) (l : EObjectEList) (heap : Heap)
    (cs : List Call) (i : Nat) (new : Ptr) :
    (EObjectEList.performAll B { l with containement := true } heap cs).map
        (fun s => (s.list.v_, s.calls, s.heap)) =
      (EObjectEList.performAll B { l with containement := false } heap cs).map
        (fun s => (s.list.v_, s.calls, s.heap)) ∧
    (EObjectEList.remove B { l with containement := true } heap i).map
        (fun s => (s.value, s.list.v_, s.calls, s.heap)) =
      (EObjectEList.remove B { l with containement := false } heap i).map
        (fun s => (s.value, s.list.v_, s.calls, s.heap)) ∧
    (EObjectEList.setUnique B { l with containement := true } heap i new).map
        (fun s => (s.value, s.list.v_, s.calls, s.heap)) =
      (EObjectEList.setUnique B { l with containement := false } heap i new).map
        (fun s => (s.value, s.list.v_, s.calls, s.heap)) := by
  refine ⟨?_, ?_, ?_⟩
  · rw [performAll_containement B cs true l heap, performAll_containement B cs false l heap]
    cases EObjectEList.performAll B l heap cs <;> rfl
  · rw [remove_containement B l heap i true, remove_containement B l heap i false]
    cases EObjectEList.remove B l heap i <;> rfl
  · rw [setUnique_containement B l heap i new true, setUnique_containement B l heap i new false]
    cases EObjectEList.setUnique B l heap i new <;> rfl

/-! ## Add followed by remove -/

/-- C19: for every list and every reflective object `x`, `addUnique( x )` followed by
`remove( size() - 1 )` returns `x` and leaves the list with the contents it had before the
two calls; when `inverse` is true the `eInverseRemove` issued on `x` carries the owner and
the identifier of the `eInverseAdd` issued on `x`, and when `inverse` is false neither is
issued. -/
theorem add_then_remove_balanced (B : Int) (l : EObjectEList) (heap : Heap) (x : ObjId) :
    (EObjectEList.addUnique B l heap (Ptr.eobject x)).calls.filter Event.isInverse =
        (if l.inverse then
          [Event.eInverseAdd x (l.getOwner heap)
            (if l.opposite then l.inverseFeatureID_ else intSub B l.featureID_)]
        else []) ∧
      EObjectEList.remove B (EObjectEList.addUnique B l heap (Ptr.eobject x)).list
          (EObjectEList.addUnique B l heap (Ptr.eobject x)).heap
          ((EObjectEList.addUnique B l heap (Ptr.eobject x)).list.size - 1) =
        some { value := Ptr.eobject x, list := l, heap := heap,
               calls :=
                 (if l.inverse then
                    [Event.eInverseRemove x (l.getOwner heap)
                      (if l.opposite then l.inverseFeatureID_ else intSub B l.featureID_)]
                  else []) ++
                 (match heap l.owner_ with
                  | some o =>
                    if o.eNotificationRequired then
                      Event.make_ENotification
                          { eventType := EventType.REMOVE, notifier := l.owner_,
                            feature := o.eClass.getEStructuralFeature l.featureID_,
                            oldValue := Ptr.eobject x, newValue := Ptr.null,
                            position := l.size } ::
                        o.eAdapters_.map (fun a => Event.notifyChanged a
                          (some { eventType := EventType.REMOVE, notifier := l.owner_,
                                  feature := o.eClass.getEStructuralFeature l.featureID_,
                                  oldValue := Ptr.eobject x, newValue := Ptr.null,
                                  position := l.size }))
                    else []
                  | none => []) } := by
  constructor
  · rw [addUnique_eq, List.filter_append, filter_isInverse_notifyCalls, List.append_nil,
      Inverse_inverseAdd_eq]
    cases l.inverse <;> simp [Event.isInverse, Event.isInverseAdd]
  · rw [addUnique_eq]
    have hsize : (l.v_ ++ [Ptr.eobject x]).length - 1 = l.v_.length := by simp
    have hget : (l.v_ ++ [Ptr.eobject x])[l.v_.length]? = some (Ptr.eobject x) :=
      List.getElem?_concat_length l.v_ (Ptr.eobject x)
    have herase : (l.v_ ++ [Ptr.eobject x]).eraseIdx l.v_.length = l.v_ := by
      rw [List.eraseIdx_append_of_length_le (Nat.le_refl _)]
      simp
    show EObjectEList.remove B { l with v_ := l.v_ ++ [Ptr.eobject x] } heap
      ((l.v_ ++ [Ptr.eobject x]).length - 1) = _
    rw [hsize, remove_eq B { l with v_ := l.v_ ++ [Ptr.eobject x] } heap l.v_.length
      (Ptr.eobject x) hget]
    simp only [herase, dynamic_pointer_cast, Inverse_inverseRemove_eq, notifyCalls_eq]
    rfl

/-! ## Construction -/

/-- C20: a list built by `EObjectEList( owner, featureID )` has `inverseFeatureID_` equal to
the feature id of the declared opposite when the owner's feature `featureID` is a reference
with an opposite, and equal to `-1` otherwise (no such feature, not a reference, or no
opposite); a list built by `EObjectEList( owner, featureID, inverseFeatureID )` has the
supplied value; so a list with `inverse` and `opposite` true whose feature declares no
opposite passes `-1` to every inverse update. -/
theorem inverseFeatureID_at_construction (c i o : Bool) (owner : ObjId)
    (ownerObject : BasicEObject) (featureID supplied : Int) :
    (∀ (r : EStructuralFeature) (g : Int),
      ownerObject.eClass.getEStructuralFeature featureID = some r →
      r.isEReference = true → r.eOpposite = some g →
      (EObjectEList.construct c i o owner ownerObject featureID).inverseFeatureID_ = g) ∧
    ((∀ r : EStructuralFeature,
        ownerObject.eClass.getEStructuralFeature featureID = some r →
        r.isEReference = true → r.eOpposite = none) →
      (EObjectEList.construct c i o owner ownerObject featureID).inverseFeatureID_ = -1 ∧
      ∀ (B : Int) (heap : Heap) (q : ObjId),
        (EObjectEList.Inverse.inverseAdd B
            (EObjectEList.construct c true true owner ownerObject featureID) heap q).2 =
          [Event.eInverseAdd q
            ((EObjectEList.construct c true true owner ownerObject featureID).getOwner heap)
            (-1)] ∧
        (EObjectEList.Inverse.inverseRemove B
            (EObjectEList.construct c true true owner ownerObject featureID) heap q).2 =
          [Event.eInverseRemove q
            ((EObjectEList.construct c true true owner ownerObject featureID).getOwner heap)
            (-1)]) ∧
    (EObjectEList.constructWith c i o owner featureID supplied).inverseFeatureID_ = supplied ∧
    (EObjectEList.construct c i o owner ownerObject featureID).featureID_ = featureID ∧
    (EObjectEList.construct c i o owner ownerObject featureID).owner_ = owner ∧
    (EObjectEList.construct c i o owner ownerObject featureID).v_ = [] := by
  have hnone : ∀ (c2 i2 o2 : Bool),
      (∀ r : EStructuralFeature,
        ownerObject.eClass.getEStructuralFeature featureID = some r →
        r.isEReference = true → r.eOpposite = none) →
      (EObjectEList.construct c2 i2 o2 owner ownerObject featureID).inverseFeatureID_ = -1 := by
    intro c2 i2 o2 h
    unfold EObjectEList.construct
    cases hr : ownerObject.eClass.getEStructuralFeature featureID with
    | none => rfl
    | some r =>
      cases hk : r.isEReference with
      | false => simp [Option.filter, hk]
      | true => simp [Option.filter, hk, h r hr hk]
  refine ⟨?_, ?_, rfl, rfl, rfl, rfl⟩
  · intro r g hr hk hg
    unfold EObjectEList.construct
    simp [hr, Option.filter, hk, hg]
  · intro h
    refine ⟨hnone c i o h, ?_⟩
    intro B heap q
    have hid := hnone c true true h
    rw [Inverse_inverseAdd_eq, Inverse_inverseRemove_eq, hid]
    constructor <;> rfl

/-- C20 at an object of class `Parent`: the list of its reference `children` (declared
opposite 3) gets 3, the list of its attribute `name` gets `-1` and passes `-1` on. -/
theorem inverseFeatureID_at_construction_witness :
    (EObjectEList.construct false true true 0 (BasicEObject.construct parentClass)
        1).inverseFeatureID_ = 3 ∧
      (EObjectEList.construct false true true 0 (BasicEObject.construct parentClass)
        0).inverseFeatureID_ = -1 ∧
      (EObjectEList.Inverse.inverseAdd (-1)
          (EObjectEList.construct false true true 0 (BasicEObject.construct parentClass) 0)
          folderHeap 1).2 = [Event.eInverseAdd 1 (some 0) (-1)] :=
  ⟨(inverseFeatureID_at_construction false true true 0 (BasicEObject.construct parentClass)
      1 9).1 parentChildren 3 rfl rfl rfl,
    ((inverseFeatureID_at_construction false true true 0 (BasicEObject.construct parentClass)
      0 9).2.1 (by
        intro r hr hk
        have hr2 : r = parentName := (Option.some.inj hr).symm
        subst hr2
        rfl)).1,
    (((inverseFeatureID_at_construction false true true 0 (BasicEObject.construct parentClass)
      0 9).2.1 (by
        intro r hr hk
        have hr2 : r = parentName := (Option.some.inj hr).symm
        subst hr2
        rfl)).2 (-1) folderHeap 1).1⟩

/-! ## Containment -/

end ecore
